import Mathlib

/-!
# chia-operator: the reconcile dispatchers of ChiaCA, ChiaFarmer and ChiaWallet

A shallow embedding of `internal/controller/chiaca/controller.go`,
`internal/controller/chiafarmer/controller.go` and
`internal/controller/chiawallet/controller.go`.

Every `Reconcile` talks to collaborators that are not part of the three files: the cluster
client (`r.Get`, `r.Status().Update`), the generic child reconcilers (`kube.ReconcileX`
applied to the descriptor returned by `r.assembleX`), the CA secret query (`r.getCASecret`),
the logger and `time.Sleep`.  The embedding makes every such interaction explicit:

* the answers of the collaborators are an arbitrary `Cluster` value, one answer per call
  site (the secret query, which is repeated, is indexed by the number of the query);
* every interaction is appended, with the answer it got, to the `trace` of the invocation.

`Reconcile` is then a total function from a `Cluster` and a `Request` to an `Outcome`: the
returned `ctrl.Result`, the returned `error` and the trace.

The file also embeds the decoding of a manifest into the types of
`api/v1/chiawallet_types.go`, as exercised by `api/v1/chiawallet_types_test.go` and
`api/v1/chiafarmer_types_test.go`: see the section on manifest decoding.
-/

namespace ChiaOperator

/-! ## Collaborator types -/

/-- The key of an object, `types.NamespacedName`. -/
structure NamespacedName where
  Namespace : String
  Name : String
deriving DecidableEq

/-- The method `NamespacedName.String()`, used by the `%s` verbs: `namespace/name`. -/
def NamespacedName.String (n : NamespacedName) : String :=
  n.Namespace ++ "/" ++ n.Name

/-- The request handed to a dispatcher, `ctrl.Request`. -/
structure Request where
  NamespacedName : NamespacedName
deriving DecidableEq

/-- The value `ctrl.Result` (alias of `reconcile.Result`); `RequeueAfter` is a duration. -/
structure Result where
  Requeue : Bool := false
  RequeueAfter : Nat := 0
deriving DecidableEq

/-- A non-nil Go `error`: its message `Error()` and whether `errors.IsNotFound` holds of it.
A possibly nil `error` is an `Option Error`. -/
structure Error where
  notFound : Bool
  msg : String
deriving DecidableEq

/-- The predicate `errors.IsNotFound` of `k8s.io/apimachinery/pkg/api/errors`. -/
def IsNotFound (err : Option Error) : Bool :=
  match err with
  | none => false
  | some e => e.notFound

/-- The function `client.IgnoreNotFound`: nil on a NotFound error, the error itself
otherwise. -/
def IgnoreNotFound (err : Option Error) : Option Error :=
  if IsNotFound err then none else err

/-- The error built by `fmt.Errorf` with the verbs `%s` and `%v`: a fresh error with the
formatted message, that wraps nothing (so `errors.IsNotFound` is false of it). -/
def Errorf (msg : String) : Error :=
  { notFound := false, msg := msg }

/-! ## Custom resources -/

/-- The fields of `metav1.TypeMeta`. -/
structure TypeMeta where
  APIVersion : String := ""
  Kind : String := ""
deriving DecidableEq

/-- The fields of `metav1.ObjectMeta` that the manifests of this repository set. -/
structure ObjectMeta where
  Name : String := ""
  Namespace : String := ""
  Labels : Option (List (String × String)) := none
deriving DecidableEq

/-- Modelled from the spec: the declaration of `SpecChiaExporter`, the chia-exporter part of
`CommonSpec`, is not among the sources; the fields are the ones the sample manifests set. -/
structure SpecChiaExporter where
  Enabled : Bool := false
  ServiceLabels : Option (List (String × String)) := none
deriving DecidableEq

/-- Modelled from the spec: the declaration of `CommonSpec`, inlined into `ChiaWalletSpec`,
is not among the sources; the field is the one the sample manifests set. -/
structure CommonSpec where
  ChiaExporterConfig : SpecChiaExporter := {}
deriving DecidableEq

/-- Modelled from the spec: the declaration of `CommonChiaConfigSpec`, inlined into
`ChiaWalletConfigSpec`, is not among the sources; the fields are the ones the wallet manifest
sets. -/
structure CommonChiaConfigSpec where
  CASecretName : String := ""
  Testnet : Option Bool := none
  Timezone : Option String := none
  LogLevel : Option String := none
deriving DecidableEq

/-- Modelled from the spec: the declaration of `ChiaKeysSpec`, the Secret name and key of a
mnemonic, is not among the sources; the fields are the ones the wallet manifest sets. -/
structure ChiaKeysSpec where
  Name : String := ""
  Key : String := ""
deriving DecidableEq

/-- The struct `ChiaWalletConfigSpec` of `api/v1/chiawallet_types.go`. -/
structure ChiaWalletConfigSpec where
  CommonChiaConfigSpec : CommonChiaConfigSpec := {}
  SecretKeySpec : ChiaKeysSpec := {}
  FullNodePeer : String := ""
deriving DecidableEq

/-- The struct `ChiaWalletSpec` of `api/v1/chiawallet_types.go`. -/
structure ChiaWalletSpec where
  CommonSpec : CommonSpec := {}
  ChiaConfig : ChiaWalletConfigSpec := {}
deriving DecidableEq

/-- The struct `ChiaWalletStatus` of `api/v1/chiawallet_types.go`. -/
structure ChiaWalletStatus where
  Ready : Bool := false
deriving DecidableEq

/-- The struct `ChiaWallet` of `api/v1/chiawallet_types.go`. -/
structure ChiaWallet where
  TypeMeta : TypeMeta := {}
  ObjectMeta : ObjectMeta := {}
  Spec : ChiaWalletSpec := {}
  Status : ChiaWalletStatus := {}
deriving DecidableEq

/-- The status of a ChiaFarmer: the `Ready` flag the dispatcher writes. -/
structure ChiaFarmerStatus where
  Ready : Bool := false
deriving DecidableEq

/-- The struct `ChiaFarmer`.  Its declaration is not among the sources; the dispatcher reads
no field of the spec, which is left as the type parameter `S`. -/
structure ChiaFarmer (S : Type) where
  TypeMeta : TypeMeta := {}
  ObjectMeta : ObjectMeta := {}
  Spec : S
  Status : ChiaFarmerStatus := {}
deriving DecidableEq

/-- The status of a ChiaCA: the `Ready` flag the dispatcher writes. -/
structure ChiaCAStatus where
  Ready : Bool := false
deriving DecidableEq

/-- The struct `ChiaCA`.  Its declaration is not among the sources; the dispatcher reads no
field of the spec, which is left as the type parameter `S`. -/
structure ChiaCA (S : Type) where
  TypeMeta : TypeMeta := {}
  ObjectMeta : ObjectMeta := {}
  Spec : S
  Status : ChiaCAStatus := {}
deriving DecidableEq

/-! ## Interactions -/

/-- The child reconcile call sites of the three dispatchers.  A call site is a call
`kube.ReconcileX(ctx, resourceReconciler, r.assembleY(ctx, owner))`. -/
inductive Child where
  | ServiceAccount
  | Role
  | RoleBinding
  | Job
  | BaseService
  | ChiaExporterService
  | Deployment
deriving DecidableEq

/-- The kinds of child objects, one per function `kube.ReconcileX`. -/
inductive Kind where
  | ServiceAccount
  | Role
  | RoleBinding
  | Job
  | Service
  | Deployment
deriving DecidableEq

/-- The kind of descriptor a call site assembles and reconciles: `assembleBaseService` and
`assembleChiaExporterService` both feed `kube.ReconcileService`. -/
def Child.kind : Child → Kind
  | .ServiceAccount => .ServiceAccount
  | .Role => .Role
  | .RoleBinding => .RoleBinding
  | .Job => .Job
  | .BaseService => .Service
  | .ChiaExporterService => .Service
  | .Deployment => .Deployment

/-- One interaction of a dispatcher with a collaborator, with the answer it received.
`Delete` is the client's delete call on a child: it is part of the client interface embedded
in every reconciler struct, and no call site of the dispatchers emits it. -/
inductive Event (CR : Type) where
  | LogInfo (msg : String)
  | LogError (err : Error) (msg : String)
  | Get (key : NamespacedName) (err : Option Error)
  | Reconcile (child : Child) (owner : CR) (err : Option Error)
  | GetCASecret (owner : CR) (notFound : Bool) (err : Option Error)
  | StatusUpdate (obj : CR) (err : Option Error)
  | Sleep (seconds : Nat)
  | Delete (child : Child)

/-- The answers of the collaborators during one invocation, one per call site.
* `Get key`: the primary fetch, an error or the fetched object;
* `Reconcile child owner`: what `kube.ReconcileX` returns for the descriptor assembled from
  `owner`, a possibly nil `*reconcile.Result` and a possibly nil `error`;
* `getCASecret n owner`: the `notFound` flag and the error of the secret query number `n` of
  the invocation (`0` is the query before the Job, `i ≥ 1` the one of iteration `i` of the
  wait loop);
* `StatusUpdate obj`: the error of `r.Status().Update(ctx, &obj)`. -/
structure Cluster (CR : Type) where
  Get : NamespacedName → Except Error CR
  Reconcile : Child → CR → Option Result × Option Error
  getCASecret : Nat → CR → Bool × Option Error
  StatusUpdate : CR → Option Error

/-- What one invocation of a dispatcher returns and does. -/
structure Outcome (CR : Type) where
  result : Result
  err : Option Error
  trace : List (Event CR)

/-- The child of a reconcile call, nothing for any other interaction. -/
def Event.child? {CR : Type} : Event CR → Option Child
  | .Reconcile c _ _ => some c
  | _ => none

/-- The child of a reconcile call that returned an error. -/
def Event.failedChild? {CR : Type} : Event CR → Option Child
  | .Reconcile c _ (some _) => some c
  | _ => none

/-- Secret queries. -/
def Event.isSecretQuery {CR : Type} : Event CR → Bool
  | .GetCASecret _ _ _ => true
  | _ => false

/-- Secret queries that found the secret: no error and `notFound` false. -/
def Event.isSecretFound {CR : Type} : Event CR → Bool
  | .GetCASecret _ false none => true
  | _ => false

/-- Status updates. -/
def Event.isStatusUpdate {CR : Type} : Event CR → Bool
  | .StatusUpdate _ _ => true
  | _ => false

/-- Deletes. -/
def Event.isDelete {CR : Type} : Event CR → Bool
  | .Delete _ => true
  | _ => false

/-- Log lines. -/
def Event.isLog {CR : Type} : Event CR → Bool
  | .LogInfo _ => true
  | .LogError _ _ => true
  | _ => false

/-- The recorded sequence of child reconcile calls of a trace. -/
def childCalls {CR : Type} (tr : List (Event CR)) : List Child :=
  tr.filterMap Event.child?

/-- The number of secret queries of a trace. -/
def secretChecks {CR : Type} (tr : List (Event CR)) : Nat :=
  tr.countP Event.isSecretQuery

/-- The number of status updates of a trace. -/
def statusUpdates {CR : Type} (tr : List (Event CR)) : Nat :=
  tr.countP Event.isStatusUpdate

/-- The number of delete calls of a trace. -/
def deletes {CR : Type} (tr : List (Event CR)) : Nat :=
  tr.countP Event.isDelete

/-- The collaborator calls of a trace: everything but the log lines. -/
def calls {CR : Type} (tr : List (Event CR)) : List (Event CR) :=
  tr.filter (fun ev => !ev.isLog)

/-- The error answered by the cluster client to a fetch, a secret query or a status update;
nothing for any other interaction. -/
def Event.clientErr? {CR : Type} : Event CR → Option Error
  | .Get _ err => err
  | .GetCASecret _ _ err => err
  | .StatusUpdate _ err => err
  | _ => none

/-- Whether a message contains the namespaced name `namespace/name`. -/
def mentionsName (msg : String) (n : NamespacedName) : Prop :=
  n.String.data <:+: msg.data

instance (msg : String) (n : NamespacedName) : Decidable (mentionsName msg n) :=
  inferInstanceAs (Decidable (n.String.data <:+: msg.data))

/-- The number of child reconcile calls of a trace whose descriptor is of kind `k`. -/
def reconciled {CR : Type} (k : Kind) (tr : List (Event CR)) : Nat :=
  ((childCalls tr).map Child.kind).count k

/-- Whether the message of an error contains the namespaced name of the request. -/
def Error.mentions (e : Error) (n : NamespacedName) : Prop :=
  mentionsName e.msg n

instance (e : Error) (n : NamespacedName) : Decidable (e.mentions n) :=
  inferInstanceAs (Decidable (mentionsName e.msg n))

/-- The `*res` returned next to a child error: `res` itself, or the empty result when the
child reconciler returned a nil pointer. -/
def derefResult (res : Option Result) : Result :=
  match res with
  | none => {}
  | some r => r

/-! ## ChiaCA -/

namespace chiaca

/-- How the wait loop of `Reconcile` is left: by a `return` inside the body, by `break`
after the status update, or because `i` exceeded the bound. -/
inductive LoopExit where
  | returned (result : Result) (err : Option Error)
  | broke
  | exhausted
deriving DecidableEq

/-- The loop `for i := 1; i <= 100; i++` of `Reconcile` (lines 104-125), started at `i` with
`n` iterations left (`n = 100`, `i = 1` at the call).  Returns how the loop was left and the
interactions of the loop. -/
def waitLoop {S : Type} (cl : Cluster (ChiaCA S)) (req : Request) (ca : ChiaCA S) :
    Nat → Nat → LoopExit × List (Event (ChiaCA S))
  | 0, _ => (.exhausted, [])
  | n + 1, i =>
    let info : Event (ChiaCA S) := .LogInfo ("ChiaCAReconciler ChiaCA=" ++ req.NamespacedName.String
      ++ " waiting for ChiaCA Job to create CA Secret, iteration " ++ toString i ++ "...")
    let ans := cl.getCASecret i ca
    let query : Event (ChiaCA S) := .GetCASecret ca ans.1 ans.2
    match ans.2 with
    | some err =>
      (.returned {} (some err), [info, query, .LogError err ("ChiaCAReconciler ChiaCA="
        ++ req.NamespacedName.String ++ " unable to query for ChiaCA secret")])
    | none =>
      if !ans.1 then
        let ca' : ChiaCA S := { ca with Status := { ca.Status with Ready := true } }
        match cl.StatusUpdate ca' with
        | some err =>
          (.returned {} (some err), [info, query, .StatusUpdate ca' (some err),
            .LogError err ("ChiaCAReconciler ChiaCA=" ++ req.NamespacedName.String
              ++ " unable to update ChiaCA status")])
        | none => (.broke, [info, query, .StatusUpdate ca' none])
      else
        let rest := waitLoop cl req ca n (i + 1)
        (rest.1, [info, query, .Sleep 10] ++ rest.2)

/-- The method `ChiaCAReconciler.Reconcile`. -/
def Reconcile {S : Type} (cl : Cluster (ChiaCA S)) (req : Request) : Outcome (ChiaCA S) :=
  let name := req.NamespacedName.String
  let t0 : List (Event (ChiaCA S)) := [.LogInfo ("ChiaCAReconciler ChiaCA=" ++ name)]
  -- Get the custom resource
  match cl.Get req.NamespacedName with
  | .error err =>
    let t1 := t0 ++ [.Get req.NamespacedName (some err)]
    if IsNotFound (some err) then
      ⟨{}, none, t1⟩
    else
      ⟨{}, some err, t1 ++ [.LogError err ("ChiaCAReconciler ChiaCA=" ++ name
        ++ " unable to fetch ChiaCA resource")]⟩
  | .ok ca =>
    let t1 := t0 ++ [.Get req.NamespacedName none]
    -- Reconcile resources, creating them if they don't exist
    let sa := cl.Reconcile .ServiceAccount ca
    let t2 := t1 ++ [.Reconcile .ServiceAccount ca sa.2]
    match sa.2 with
    | some err =>
      ⟨derefResult sa.1, some (Errorf ("ChiaCAReconciler ChiaCA=" ++ name
        ++ " encountered error reconciling CA generator ServiceAccount: " ++ err.msg)), t2⟩
    | none =>
    let role := cl.Reconcile .Role ca
    let t3 := t2 ++ [.Reconcile .Role ca role.2]
    match role.2 with
    | some err =>
      ⟨derefResult role.1, some (Errorf ("ChiaCAReconciler ChiaCA=" ++ name
        ++ " encountered error reconciling CA generator Role: " ++ err.msg)), t3⟩
    | none =>
    let rb := cl.Reconcile .RoleBinding ca
    let t4 := t3 ++ [.Reconcile .RoleBinding ca rb.2]
    match rb.2 with
    | some err =>
      ⟨derefResult rb.1, some (Errorf ("ChiaCAReconciler ChiaCA=" ++ name
        ++ " encountered error reconciling CA generator RoleBinding: " ++ err.msg)), t4⟩
    | none =>
    -- Query CA Secret
    let sec := cl.getCASecret 0 ca
    let t5 := t4 ++ [.GetCASecret ca sec.1 sec.2]
    match sec.2 with
    | some err =>
      ⟨{}, some err, t5 ++ [.LogError err ("ChiaCAReconciler ChiaCA=" ++ name
        ++ " unable to query for ChiaCA secret")]⟩
    | none =>
    -- Create CA generating Job if Secret does not already exist
    if sec.1 then
      let job := cl.Reconcile .Job ca
      let t6 := t5 ++ [.Reconcile .Job ca job.2]
      match job.2 with
      | some err =>
        ⟨derefResult job.1, some (Errorf ("ChiaCAReconciler ChiaCA=" ++ name
          ++ " encountered error reconciling CA generator Job: " ++ err.msg)), t6⟩
      | none =>
        -- Loop to determine if Secret was made, set to Ready once done
        let loop := waitLoop cl req ca 100 1
        match loop.1 with
        | .returned res err => ⟨res, err, t6 ++ loop.2⟩
        | _ => ⟨{}, none, t6 ++ loop.2⟩
    else
      ⟨{}, none, t5⟩

end chiaca

/-! ## ChiaFarmer -/

namespace chiafarmer

/-- The method `ChiaFarmerReconciler.Reconcile`. -/
def Reconcile {S : Type} (cl : Cluster (ChiaFarmer S)) (req : Request) : Outcome (ChiaFarmer S) :=
  let name := req.NamespacedName.String
  let t0 : List (Event (ChiaFarmer S)) := [.LogInfo ("ChiaFarmerReconciler ChiaFarmer=" ++ name)]
  -- Get the custom resource
  match cl.Get req.NamespacedName with
  | .error err =>
    let t1 := t0 ++ [.Get req.NamespacedName (some err)]
    if IsNotFound (some err) then
      ⟨{}, none, t1⟩
    else
      ⟨{}, IgnoreNotFound (some err), t1 ++ [.LogError err ("ChiaFarmerReconciler ChiaFarmer=" ++ name
        ++ " unable to fetch ChiaFarmer resource")]⟩
  | .ok farmer =>
    let t1 := t0 ++ [.Get req.NamespacedName none]
    -- Reconcile ChiaFarmer owned objects
    let srv := cl.Reconcile .BaseService farmer
    let t2 := t1 ++ [.Reconcile .BaseService farmer srv.2]
    match srv.2 with
    | some err =>
      ⟨derefResult srv.1, some (Errorf ("ChiaFarmerReconciler ChiaFarmer=" ++ name
        ++ " encountered error reconciling farmer Service: " ++ err.msg)), t2⟩
    | none =>
    let exp := cl.Reconcile .ChiaExporterService farmer
    let t3 := t2 ++ [.Reconcile .ChiaExporterService farmer exp.2]
    match exp.2 with
    | some err =>
      ⟨derefResult exp.1, some (Errorf ("ChiaFarmerReconciler ChiaFarmer=" ++ name
        ++ " encountered error reconciling farmer chia-exporter Service: " ++ err.msg)), t3⟩
    | none =>
    let deploy := cl.Reconcile .Deployment farmer
    let t4 := t3 ++ [.Reconcile .Deployment farmer deploy.2]
    match deploy.2 with
    | some err =>
      ⟨derefResult deploy.1, some (Errorf ("ChiaFarmerReconciler ChiaFarmer=" ++ name
        ++ " encountered error reconciling farmer Deployment: " ++ err.msg)), t4⟩
    | none =>
    -- Update CR status
    let farmer' : ChiaFarmer S := { farmer with Status := { farmer.Status with Ready := true } }
    match cl.StatusUpdate farmer' with
    | some err =>
      ⟨{}, some err, t4 ++ [.StatusUpdate farmer' (some err), .LogError err
        ("ChiaFarmerReconciler ChiaFarmer=" ++ name ++ " unable to update ChiaFarmer status")]⟩
    | none => ⟨{}, none, t4 ++ [.StatusUpdate farmer' none]⟩

end chiafarmer

/-! ## ChiaWallet -/

namespace chiawallet

/-- The method `ChiaWalletReconciler.Reconcile`. -/
def Reconcile (cl : Cluster ChiaWallet) (req : Request) : Outcome ChiaWallet :=
  let name := req.NamespacedName.String
  let t0 : List (Event ChiaWallet) := [.LogInfo ("ChiaWalletReconciler ChiaWallet=" ++ name)]
  -- Get the custom resource
  match cl.Get req.NamespacedName with
  | .error err =>
    let t1 := t0 ++ [.Get req.NamespacedName (some err)]
    if IsNotFound (some err) then
      ⟨{}, none, t1⟩
    else
      ⟨{}, IgnoreNotFound (some err), t1 ++ [.LogError err ("ChiaWalletReconciler ChiaWallet=" ++ name
        ++ " unable to fetch ChiaWallet resource")]⟩
  | .ok wallet =>
    let t1 := t0 ++ [.Get req.NamespacedName none]
    -- Reconcile ChiaWallet owned objects
    let srv := cl.Reconcile .BaseService wallet
    let t2 := t1 ++ [.Reconcile .BaseService wallet srv.2]
    match srv.2 with
    | some err =>
      ⟨derefResult srv.1, some (Errorf ("ChiaWalletReconciler ChiaWallet=" ++ name
        ++ " encountered error reconciling wallet Service: " ++ err.msg)), t2⟩
    | none =>
    let exp := cl.Reconcile .ChiaExporterService wallet
    let t3 := t2 ++ [.Reconcile .ChiaExporterService wallet exp.2]
    match exp.2 with
    | some err =>
      ⟨derefResult exp.1, some (Errorf ("ChiaWalletReconciler ChiaWallet=" ++ name
        ++ " encountered error reconciling wallet chia-exporter Service: " ++ err.msg)), t3⟩
    | none =>
    let deploy := cl.Reconcile .Deployment wallet
    let t4 := t3 ++ [.Reconcile .Deployment wallet deploy.2]
    match deploy.2 with
    | some err =>
      ⟨derefResult deploy.1, some (Errorf ("ChiaWalletReconciler ChiaWallet=" ++ name
        ++ " encountered error reconciling wallet Deployment: " ++ err.msg)), t4⟩
    | none =>
    -- Update CR status
    let wallet' : ChiaWallet := { wallet with Status := { wallet.Status with Ready := true } }
    match cl.StatusUpdate wallet' with
    | some err =>
      ⟨{}, some err, t4 ++ [.StatusUpdate wallet' (some err), .LogError err
        ("ChiaWalletReconciler ChiaWallet=" ++ name ++ " unable to update ChiaWallet status")]⟩
    | none => ⟨{}, none, t4 ++ [.StatusUpdate wallet' none]⟩

end chiawallet

/-! ## Manifest decoding

`yaml.Unmarshal` of `sigs.k8s.io/yaml` parses the YAML text, converts the document to JSON
under the direction of the target type and hands it to `json.Unmarshal`, which fills the
struct as directed by the `json` tags of the type declarations.  None of this is code of the
repository except the declarations and their tags.  The embedding starts from the parsed
document, a `Node`, and answers one of three things (`Except Failure`): the decoded value,
`Failure.error` when `Unmarshal` returns an error, or `Failure.unmodelled` when the document
uses something this embedding does not represent, so that it never answers for a document it
does not cover.  What it follows:

* a key of a mapping belongs to the field whose tag it equals up to case (`sameField`);
  a repeated key keeps its last value; two different spellings of one field in one mapping
  are `unmodelled`;
* a struct is decoded from a mapping, and left at its zero value by an absent or null
  member; an inlined struct (`json:",inline"`) takes its fields from the enclosing mapping;
* for a string field that a struct declares itself (also as the value of a
  `map[string]string`) an integer becomes its decimal text and a boolean `true` or `false`;
  for a string field promoted from an inlined struct, or below one, that conversion is
  directed by the type of the inlined struct and an integer or boolean is `unmodelled`; any
  other mismatch between node and field is an `error`;
* keys without a field are ignored where the whole declaration is known (the root, with the
  two fields of `metav1.TypeMeta`, and the status); in `metadata`, `spec`, `spec.chia`,
  `spec.chia.secretKey` and `spec.chiaExporter`, whose declarations have fields that are not
  represented here, a key of no represented field is `unmodelled`.

Documents with floating-point numbers or with keys that are not strings are not represented
by `Node`.  A Go map is `none` when nil and otherwise the list of its entries, each key once,
in the order of the document; a pointer is an `Option`. -/

/-- A parsed YAML document: null, a boolean, an integer, a string, a sequence or a mapping
with its entries in the order of the text. -/
inductive Node where
  | null
  | bool (b : Bool)
  | num (n : Int)
  | str (s : String)
  | seq (items : List Node)
  | map (entries : List (String × Node))

/-- Why a decoding yields no value: `Unmarshal` returns an error, or the document is outside
what the embedding represents. -/
inductive Failure where
  | error
  | unmodelled
deriving DecidableEq

/-- Case folding of one character of a key, as the field matching of `encoding/json` does
for tags made of ASCII letters: ASCII letters fold to upper case, the long s to `S` and the
Kelvin sign to `K`. -/
def foldChar (c : Char) : Char :=
  if c = Char.ofNat 0x17F then 'S' else if c = Char.ofNat 0x212A then 'K' else c.toUpper

/-- Whether a key of a mapping is decoded into the field with tag `tag`: they are equal up
to case. -/
def sameField (tag key : String) : Bool :=
  tag.data.map foldChar == key.data.map foldChar

/-- The member of a mapping that is decoded into the field with tag `tag`: none when no key
matches the tag, the value of the last entry when every matching key has the same spelling,
`unmodelled` when two spellings of the field are present. -/
def field (tag : String) (entries : List (String × Node)) : Except Failure (Option Node) :=
  match (entries.filter (fun e => sameField tag e.1)).reverse with
  | [] => .ok none
  | last :: earlier =>
    if earlier.all (fun e => e.1 == last.1) then .ok (some last.2) else .error .unmodelled

/-- Succeeds when every key of the mapping belongs to one of the fields `tags`; otherwise
the key may belong to a field that is not represented, and the answer is `unmodelled`. -/
def onlyFields (tags : List String) (entries : List (String × Node)) : Except Failure Unit :=
  if entries.all (fun e => tags.any (fun t => sameField t e.1)) then .ok ()
  else .error .unmodelled

/-- The entries a struct is decoded from: none for an absent or null node (every field keeps
its zero value), the entries of a mapping, and an error for any other node. -/
def members : Option Node → Except Failure (List (String × Node))
  | none => .ok []
  | some .null => .ok []
  | some (.map entries) => .ok entries
  | some _ => .error .error

/-- The member of a possibly absent node that is decoded into the field with tag `tag`. -/
def child (tag : String) : Option Node → Except Failure (Option Node)
  | some (.map entries) => field tag entries
  | _ => .ok none

/-- The node reached from the root of a document along a path of tags, such as
`spec.chia.fullNodePeer`. -/
def Node.path (doc : Node) (tags : List String) : Except Failure (Option Node) :=
  tags.foldlM (fun v tag => child tag v) (some doc)

/-- The integers the YAML parser yields as integers (`int64` and `uint64`); larger ones are
parsed as floating-point numbers. -/
def isYAMLInt (n : Int) : Bool :=
  decide (-9223372036854775808 ≤ n ∧ n ≤ 18446744073709551615)

/-- The text of a boolean in a string field. -/
def boolText (b : Bool) : String :=
  if b then "true" else "false"

/-- Decoding into a Go `string`; `direct` tells whether the conversion to JSON is directed
by the string type of the field, so that integers and booleans become text. -/
def decodeString (direct : Bool) : Option Node → Except Failure String
  | none => .ok ""
  | some .null => .ok ""
  | some (.str s) => .ok s
  | some (.num n) => if direct && isYAMLInt n then .ok (toString n) else .error .unmodelled
  | some (.bool b) => if direct then .ok (boolText b) else .error .unmodelled
  | some (.seq _) => .error .error
  | some (.map _) => .error .error

/-- Decoding into a Go `bool`. -/
def decodeBool : Option Node → Except Failure Bool
  | none => .ok false
  | some .null => .ok false
  | some (.bool b) => .ok b
  | some _ => .error .error

/-- Decoding into a Go `*string` that is promoted from an inlined struct. -/
def decodeStringPtr : Option Node → Except Failure (Option String)
  | none => .ok none
  | some .null => .ok none
  | some (.str s) => .ok (some s)
  | some (.num _) => .error .unmodelled
  | some (.bool _) => .error .unmodelled
  | some (.seq _) => .error .error
  | some (.map _) => .error .error

/-- Decoding into a Go `*bool`. -/
def decodeBoolPtr : Option Node → Except Failure (Option Bool)
  | none => .ok none
  | some .null => .ok none
  | some (.bool b) => .ok (some b)
  | some _ => .error .error

/-- Decoding the entries of a mapping into the entries of a `map[string]string`: an entry
whose key comes again later is dropped, the value of any other is decoded as a string. -/
def decodeEntries (direct : Bool) :
    List (String × Node) → Except Failure (List (String × String))
  | [] => .ok []
  | (k, v) :: rest =>
    if rest.any (fun e => e.1 == k) then decodeEntries direct rest
    else
      match decodeString direct (some v), decodeEntries direct rest with
      | .ok s, .ok tl => .ok ((k, s) :: tl)
      | .error f, _ => .error f
      | _, .error f => .error f

/-- Decoding into a Go `map[string]string`. -/
def decodeStringMap (direct : Bool) :
    Option Node → Except Failure (Option (List (String × String)))
  | none => .ok none
  | some .null => .ok none
  | some (.map entries) => (decodeEntries direct entries).map some
  | some _ => .error .error

/-- Decoding `metav1.ObjectMeta`: `Name` is tagged `name`, `Namespace` is tagged `namespace`,
`Labels` is tagged `labels`; its other fields are not represented. -/
def decodeObjectMeta (v : Option Node) : Except Failure ObjectMeta := do
  let entries ← members v
  onlyFields ["name", "namespace", "labels"] entries
  let name ← decodeString true (← field "name" entries)
  let ns ← decodeString true (← field "namespace" entries)
  let labels ← decodeStringMap true (← field "labels" entries)
  pure { Name := name, Namespace := ns, Labels := labels }

/-- Modelled from the spec: decoding `SpecChiaExporter`, whose declaration is not among the
sources; the keys are the ones of the sample manifests, `enabled` and `serviceLabels`. -/
def decodeSpecChiaExporter (v : Option Node) : Except Failure SpecChiaExporter := do
  let entries ← members v
  onlyFields ["enabled", "serviceLabels"] entries
  let enabled ← decodeBool (← field "enabled" entries)
  let labels ← decodeStringMap false (← field "serviceLabels" entries)
  pure { Enabled := enabled, ServiceLabels := labels }

/-- Modelled from the spec: decoding `ChiaKeysSpec`, whose declaration is not among the
sources; the keys are the ones of the sample manifests, `name` and `key`. -/
def decodeChiaKeysSpec (v : Option Node) : Except Failure ChiaKeysSpec := do
  let entries ← members v
  onlyFields ["name", "key"] entries
  let name ← decodeString true (← field "name" entries)
  let key ← decodeString true (← field "key" entries)
  pure { Name := name, Key := key }

/-- Decoding `ChiaWalletConfigSpec`: `CommonChiaConfigSpec` is inlined (modelled from the
spec: its declaration is not among the sources, its keys are the ones of the sample
manifests, `caSecretName`, `testnet`, `timezone` and `logLevel`), `SecretKeySpec` is tagged
`secretKey`, `FullNodePeer` is tagged `fullNodePeer`. -/
def decodeChiaWalletConfigSpec (v : Option Node) : Except Failure ChiaWalletConfigSpec := do
  let entries ← members v
  onlyFields ["caSecretName", "testnet", "timezone", "logLevel", "secretKey", "fullNodePeer"]
    entries
  let ca ← decodeString false (← field "caSecretName" entries)
  let testnet ← decodeBoolPtr (← field "testnet" entries)
  let timezone ← decodeStringPtr (← field "timezone" entries)
  let logLevel ← decodeStringPtr (← field "logLevel" entries)
  let secretKey ← decodeChiaKeysSpec (← field "secretKey" entries)
  let peer ← decodeString true (← field "fullNodePeer" entries)
  let common : CommonChiaConfigSpec :=
    { CASecretName := ca, Testnet := testnet, Timezone := timezone, LogLevel := logLevel }
  pure { CommonChiaConfigSpec := common, SecretKeySpec := secretKey, FullNodePeer := peer }

/-- Decoding `ChiaWalletSpec`: `CommonSpec` is inlined (modelled from the spec: its
declaration is not among the sources, its key is the one of the sample manifests,
`chiaExporter`), `ChiaConfig` is tagged `chia`. -/
def decodeChiaWalletSpec (v : Option Node) : Except Failure ChiaWalletSpec := do
  let entries ← members v
  onlyFields ["chiaExporter", "chia"] entries
  let exporter ← decodeSpecChiaExporter (← field "chiaExporter" entries)
  let chia ← decodeChiaWalletConfigSpec (← field "chia" entries)
  let common : CommonSpec := { ChiaExporterConfig := exporter }
  pure { CommonSpec := common, ChiaConfig := chia }

/-- Decoding `ChiaWalletStatus`: `Ready` is tagged `ready`. -/
def decodeChiaWalletStatus (v : Option Node) : Except Failure ChiaWalletStatus := do
  let entries ← members v
  let ready ← decodeBool (← field "ready" entries)
  pure { Ready := ready }

/-- The call `yaml.Unmarshal(yamlData, &actual)` on a zero `ChiaWallet`, from the parsed
document on: `TypeMeta` is inlined (`Kind` tagged `kind`, `APIVersion` tagged `apiVersion`),
`ObjectMeta` is tagged `metadata`, `Spec` is tagged `spec`, `Status` is tagged `status`. -/
def UnmarshalChiaWallet (doc : Node) : Except Failure ChiaWallet := do
  let entries ← members (some doc)
  let kind ← decodeString false (← field "kind" entries)
  let apiVersion ← decodeString false (← field "apiVersion" entries)
  let objectMeta ← decodeObjectMeta (← field "metadata" entries)
  let spec ← decodeChiaWalletSpec (← field "spec" entries)
  let status ← decodeChiaWalletStatus (← field "status" entries)
  let typeMeta : TypeMeta := { APIVersion := apiVersion, Kind := kind }
  pure { TypeMeta := typeMeta, ObjectMeta := objectMeta, Spec := spec, Status := status }

/-- Modelled from the spec: the declaration of `ChiaSecretKey` is not among the sources; the
fields are the ones `TestUnmarshalChiaFarmer` expects. -/
structure ChiaSecretKey where
  Name : String := ""
  Key : String := ""
deriving DecidableEq

/-- Modelled from the spec: the declaration of `CommonSpecChia` is not among the sources; the
fields are the ones `TestUnmarshalChiaFarmer` expects. -/
structure CommonSpecChia where
  CASecretName : String := ""
  Testnet : Option Bool := none
  Timezone : Option String := none
  LogLevel : Option String := none
deriving DecidableEq

/-- Modelled from the spec: the declaration of `ChiaFarmerSpecChia` is not among the sources;
the fields are the ones `TestUnmarshalChiaFarmer` expects. -/
structure ChiaFarmerSpecChia where
  CommonSpecChia : CommonSpecChia := {}
  SecretKey : ChiaSecretKey := {}
  FullNodePeer : String := ""
deriving DecidableEq

/-- Modelled from the spec: the declaration of `ChiaFarmerSpec` is not among the sources; the
fields are the ones `TestUnmarshalChiaFarmer` expects. -/
structure ChiaFarmerSpec where
  CommonSpec : CommonSpec := {}
  ChiaConfig : ChiaFarmerSpecChia := {}
deriving DecidableEq

/-- Modelled from the spec: decoding `ChiaSecretKey`, with the keys of the farmer manifest of
`TestUnmarshalChiaFarmer`. -/
def decodeChiaSecretKey (v : Option Node) : Except Failure ChiaSecretKey := do
  let entries ← members v
  onlyFields ["name", "key"] entries
  let name ← decodeString true (← field "name" entries)
  let key ← decodeString true (← field "key" entries)
  pure { Name := name, Key := key }

/-- Modelled from the spec: decoding `ChiaFarmerSpecChia`, with `CommonSpecChia` inlined and
the keys of the farmer manifest of `TestUnmarshalChiaFarmer`. -/
def decodeChiaFarmerSpecChia (v : Option Node) : Except Failure ChiaFarmerSpecChia := do
  let entries ← members v
  onlyFields ["caSecretName", "testnet", "timezone", "logLevel", "secretKey", "fullNodePeer"]
    entries
  let ca ← decodeString false (← field "caSecretName" entries)
  let testnet ← decodeBoolPtr (← field "testnet" entries)
  let timezone ← decodeStringPtr (← field "timezone" entries)
  let logLevel ← decodeStringPtr (← field "logLevel" entries)
  let secretKey ← decodeChiaSecretKey (← field "secretKey" entries)
  let peer ← decodeString true (← field "fullNodePeer" entries)
  let common : CommonSpecChia :=
    { CASecretName := ca, Testnet := testnet, Timezone := timezone, LogLevel := logLevel }
  pure { CommonSpecChia := common, SecretKey := secretKey, FullNodePeer := peer }

/-- Modelled from the spec: decoding `ChiaFarmerSpec`, with `CommonSpec` inlined and the keys
of the farmer manifest of `TestUnmarshalChiaFarmer`. -/
def decodeChiaFarmerSpec (v : Option Node) : Except Failure ChiaFarmerSpec := do
  let entries ← members v
  onlyFields ["chiaExporter", "chia"] entries
  let exporter ← decodeSpecChiaExporter (← field "chiaExporter" entries)
  let chia ← decodeChiaFarmerSpecChia (← field "chia" entries)
  let common : CommonSpec := { ChiaExporterConfig := exporter }
  pure { CommonSpec := common, ChiaConfig := chia }

/-- Modelled from the spec: decoding the status of a ChiaFarmer, `Ready` under `ready`. -/
def decodeChiaFarmerStatus (v : Option Node) : Except Failure ChiaFarmerStatus := do
  let entries ← members v
  let ready ← decodeBool (← field "ready" entries)
  pure { Ready := ready }

/-- Modelled from the spec: the call `yaml.Unmarshal(yamlData, &actual)` on a zero
`ChiaFarmer`, from the parsed document on; the declaration of `ChiaFarmer` is not among the
sources, the layout is the one of `ChiaWallet` and of `TestUnmarshalChiaFarmer`. -/
def UnmarshalChiaFarmer (doc : Node) : Except Failure (ChiaFarmer ChiaFarmerSpec) := do
  let entries ← members (some doc)
  let kind ← decodeString false (← field "kind" entries)
  let apiVersion ← decodeString false (← field "apiVersion" entries)
  let objectMeta ← decodeObjectMeta (← field "metadata" entries)
  let spec ← decodeChiaFarmerSpec (← field "spec" entries)
  let status ← decodeChiaFarmerStatus (← field "status" entries)
  let typeMeta : TypeMeta := { APIVersion := apiVersion, Kind := kind }
  pure { TypeMeta := typeMeta, ObjectMeta := objectMeta, Spec := spec, Status := status }

/-- The node that spells a `map[string]string` in a manifest: null for a nil map, otherwise
the mapping of its entries. -/
def mapNode : Option (List (String × String)) → Node
  | none => .null
  | some entries => .map (entries.map (fun e => (e.1, .str e.2)))

/-- The node that spells a `*string` in a manifest. -/
def stringPtrNode : Option String → Node
  | none => .null
  | some s => .str s

/-- The node that spells a `*bool` in a manifest. -/
def boolPtrNode : Option Bool → Node
  | none => .null
  | some b => .bool b

/-- Whether the entries of a map have pairwise different keys, as those of a Go map do. -/
def distinctKeys : Option (List (String × String)) → Prop
  | none => True
  | some entries => (entries.map Prod.fst).Nodup

instance (m : Option (List (String × String))) : Decidable (distinctKeys m) :=
  match m with
  | none => isTrue trivial
  | some entries => inferInstanceAs (Decidable (entries.map Prod.fst).Nodup)

/-- The manifest that spells a wallet: every field under its key, as the claim lists them
(`apiVersion`, `kind`, `metadata.name`, `metadata.namespace`, `metadata.labels`,
`spec.chia.caSecretName`, `spec.chia.testnet`, `spec.chia.timezone`, `spec.chia.logLevel`,
`spec.chia.fullNodePeer`, `spec.chia.secretKey.name`, `spec.chia.secretKey.key`,
`spec.chiaExporter.enabled`, `spec.chiaExporter.serviceLabels`, `status.ready`). -/
def ChiaWallet.manifest (w : ChiaWallet) : Node :=
  .map [
    ("apiVersion", .str w.TypeMeta.APIVersion),
    ("kind", .str w.TypeMeta.Kind),
    ("metadata", .map [
      ("labels", mapNode w.ObjectMeta.Labels),
      ("name", .str w.ObjectMeta.Name),
      ("namespace", .str w.ObjectMeta.Namespace)]),
    ("spec", .map [
      ("chia", .map [
        ("caSecretName", .str w.Spec.ChiaConfig.CommonChiaConfigSpec.CASecretName),
        ("testnet", boolPtrNode w.Spec.ChiaConfig.CommonChiaConfigSpec.Testnet),
        ("timezone", stringPtrNode w.Spec.ChiaConfig.CommonChiaConfigSpec.Timezone),
        ("logLevel", stringPtrNode w.Spec.ChiaConfig.CommonChiaConfigSpec.LogLevel),
        ("fullNodePeer", .str w.Spec.ChiaConfig.FullNodePeer),
        ("secretKey", .map [
          ("name", .str w.Spec.ChiaConfig.SecretKeySpec.Name),
          ("key", .str w.Spec.ChiaConfig.SecretKeySpec.Key)])]),
      ("chiaExporter", .map [
        ("enabled", .bool w.Spec.CommonSpec.ChiaExporterConfig.Enabled),
        ("serviceLabels", mapNode w.Spec.CommonSpec.ChiaExporterConfig.ServiceLabels)])]),
    ("status", .map [("ready", .bool w.Status.Ready)])]

/-- The manifest that spells a farmer, with the same keys as the one of a wallet. -/
def ChiaFarmer.manifest (f : ChiaFarmer ChiaFarmerSpec) : Node :=
  .map [
    ("apiVersion", .str f.TypeMeta.APIVersion),
    ("kind", .str f.TypeMeta.Kind),
    ("metadata", .map [
      ("labels", mapNode f.ObjectMeta.Labels),
      ("name", .str f.ObjectMeta.Name),
      ("namespace", .str f.ObjectMeta.Namespace)]),
    ("spec", .map [
      ("chia", .map [
        ("caSecretName", .str f.Spec.ChiaConfig.CommonSpecChia.CASecretName),
        ("testnet", boolPtrNode f.Spec.ChiaConfig.CommonSpecChia.Testnet),
        ("timezone", stringPtrNode f.Spec.ChiaConfig.CommonSpecChia.Timezone),
        ("logLevel", stringPtrNode f.Spec.ChiaConfig.CommonSpecChia.LogLevel),
        ("fullNodePeer", .str f.Spec.ChiaConfig.FullNodePeer),
        ("secretKey", .map [
          ("name", .str f.Spec.ChiaConfig.SecretKey.Name),
          ("key", .str f.Spec.ChiaConfig.SecretKey.Key)])]),
      ("chiaExporter", .map [
        ("enabled", .bool f.Spec.CommonSpec.ChiaExporterConfig.Enabled),
        ("serviceLabels", mapNode f.Spec.CommonSpec.ChiaExporterConfig.ServiceLabels)])]),
    ("status", .map [("ready", .bool f.Status.Ready)])]

/-- The manifest of `TestUnmarshalChiaWallet`, parsed. -/
def chiawalletManifest : Node :=
  .map [
    ("apiVersion", .str "k8s.chia.net/v1"),
    ("kind", .str "ChiaWallet"),
    ("metadata", .map [
      ("labels", .map [
        ("app.kubernetes.io/name", .str "chiawallet"),
        ("app.kubernetes.io/instance", .str "chiawallet-sample"),
        ("app.kubernetes.io/part-of", .str "chia-operator"),
        ("app.kubernetes.io/created-by", .str "chia-operator")]),
      ("name", .str "chiawallet-sample")]),
    ("spec", .map [
      ("chia", .map [
        ("caSecretName", .str "chiaca-secret"),
        ("testnet", .bool true),
        ("timezone", .str "UTC"),
        ("logLevel", .str "INFO"),
        ("fullNodePeer", .str "node.default.svc.cluster.local:58444"),
        ("secretKey", .map [
          ("name", .str "chiakey-secret"),
          ("key", .str "key.txt")])]),
      ("chiaExporter", .map [
        ("enabled", .bool true),
        ("serviceLabels", .map [("network", .str "testnet")])])])]

/-- The value `expect` of `TestUnmarshalChiaWallet`, with the field and type names of
`api/v1/chiawallet_types.go` (the test spells `SecretKeySpec` as `SecretKey` and
`CommonChiaConfigSpec` as `CommonSpecChia`). -/
def chiawalletExpect : ChiaWallet :=
  { TypeMeta := { APIVersion := "k8s.chia.net/v1", Kind := "ChiaWallet" },
    ObjectMeta := {
      Name := "chiawallet-sample",
      Labels := some [
        ("app.kubernetes.io/name", "chiawallet"),
        ("app.kubernetes.io/instance", "chiawallet-sample"),
        ("app.kubernetes.io/part-of", "chia-operator"),
        ("app.kubernetes.io/created-by", "chia-operator")] },
    Spec := {
      ChiaConfig := {
        CommonChiaConfigSpec := {
          CASecretName := "chiaca-secret",
          Testnet := some true,
          Timezone := some "UTC",
          LogLevel := some "INFO" },
        FullNodePeer := "node.default.svc.cluster.local:58444",
        SecretKeySpec := { Name := "chiakey-secret", Key := "key.txt" } },
      CommonSpec := {
        ChiaExporterConfig := {
          Enabled := true,
          ServiceLabels := some [("network", "testnet")] } } } }

/-- The manifest of `TestUnmarshalChiaFarmer`, parsed. -/
def chiafarmerManifest : Node :=
  .map [
    ("apiVersion", .str "k8s.chia.net/v1"),
    ("kind", .str "ChiaFarmer"),
    ("metadata", .map [
      ("labels", .map [
        ("app.kubernetes.io/name", .str "chiafarmer"),
        ("app.kubernetes.io/instance", .str "chiafarmer-sample"),
        ("app.kubernetes.io/part-of", .str "chia-operator"),
        ("app.kubernetes.io/created-by", .str "chia-operator")]),
      ("name", .str "chiafarmer-sample")]),
    ("spec", .map [
      ("chia", .map [
        ("caSecretName", .str "chiaca-secret"),
        ("testnet", .bool true),
        ("timezone", .str "UTC"),
        ("logLevel", .str "INFO"),
        ("fullNodePeer", .str "node.default.svc.cluster.local:58444"),
        ("secretKey", .map [
          ("name", .str "chiakey-secret"),
          ("key", .str "key.txt")])]),
      ("chiaExporter", .map [
        ("enabled", .bool true),
        ("serviceLabels", .map [("network", .str "testnet")])])])]

/-- The value `expect` of `TestUnmarshalChiaFarmer`. -/
def chiafarmerExpect : ChiaFarmer ChiaFarmerSpec :=
  { TypeMeta := { APIVersion := "k8s.chia.net/v1", Kind := "ChiaFarmer" },
    ObjectMeta := {
      Name := "chiafarmer-sample",
      Labels := some [
        ("app.kubernetes.io/name", "chiafarmer"),
        ("app.kubernetes.io/instance", "chiafarmer-sample"),
        ("app.kubernetes.io/part-of", "chia-operator"),
        ("app.kubernetes.io/created-by", "chia-operator")] },
    Spec := {
      ChiaConfig := {
        CommonSpecChia := {
          CASecretName := "chiaca-secret",
          Testnet := some true,
          Timezone := some "UTC",
          LogLevel := some "INFO" },
        FullNodePeer := "node.default.svc.cluster.local:58444",
        SecretKey := { Name := "chiakey-secret", Key := "key.txt" } },
      CommonSpec := {
        ChiaExporterConfig := {
          Enabled := true,
          ServiceLabels := some [("network", "testnet")] } } } }

/-- The wallet manifest of the test with the keys `STATUS` and `READY` added in upper
case. -/
def chiawalletManifestUpperStatus : Node :=
  match chiawalletManifest with
  | .map entries => .map (entries ++ [("STATUS", .map [("READY", .bool true)])])
  | other => other

/-- A wallet manifest that writes the full node peer, the name and a label as integers, the
name of the secret key as a boolean and its key as a negative integer. -/
def chiawalletManifestScalars : Node :=
  .map [
    ("kind", .str "ChiaWallet"),
    ("metadata", .map [("name", .num 7), ("labels", .map [("network", .num 5)])]),
    ("spec", .map [
      ("chia", .map [
        ("fullNodePeer", .num 58444),
        ("secretKey", .map [("name", .bool true), ("key", .num (-1))])])])]

/-- What `chiawalletManifestScalars` decodes to. -/
def chiawalletExpectScalars : ChiaWallet :=
  { TypeMeta := { Kind := "ChiaWallet" },
    ObjectMeta := { Name := "7", Labels := some [("network", "5")] },
    Spec := {
      ChiaConfig := {
        SecretKeySpec := { Name := "true", Key := "-1" },
        FullNodePeer := "58444" } } }

/-- A wallet manifest whose keys are written in another case than the tags, and that
repeats the key of the full node peer. -/
def chiawalletManifestSpelling : Node :=
  .map [
    ("Kind", .str "ChiaWallet"),
    ("SPEC", .map [
      ("Chia", .map [
        ("FullNodePeer", .str "first:58444"),
        ("CASecretName", .str "chiaca-secret"),
        ("FullNodePeer", .str "last:58444")])]),
    ("Status", .map [("Ready", .bool true)])]

/-- What `chiawalletManifestSpelling` decodes to. -/
def chiawalletExpectSpelling : ChiaWallet :=
  { TypeMeta := { Kind := "ChiaWallet" },
    Spec := {
      ChiaConfig := {
        CommonChiaConfigSpec := { CASecretName := "chiaca-secret" },
        FullNodePeer := "last:58444" } },
    Status := { Ready := true } }

/-- A wallet manifest with a sequence at the full node peer. -/
def chiawalletManifestSeqPeer : Node :=
  .map [("spec", .map [("chia", .map [("fullNodePeer", .seq [.str "node:58444"])])])]

/-- A wallet manifest with a text at `status.ready`. -/
def chiawalletManifestTextReady : Node :=
  .map [("status", .map [("ready", .str "yes")])]

/-- A wallet manifest with annotations, a field of `metav1.ObjectMeta` that is not
represented. -/
def chiawalletManifestAnnotations : Node :=
  .map [("metadata", .map [("name", .str "chiawallet-sample"), ("annotations", .num 5)])]

/-- A farmer manifest that writes the full node peer as an integer, some keys in another
case than the tags, and the key `ready` twice. -/
def chiafarmerManifestScalars : Node :=
  .map [
    ("Kind", .str "ChiaFarmer"),
    ("metadata", .map [("labels", .map [("network", .bool false)])]),
    ("spec", .map [("chia", .map [("FULLNODEPEER", .num 58444)])]),
    ("status", .map [("ready", .bool false), ("ready", .bool true)])]

/-- What `chiafarmerManifestScalars` decodes to. -/
def chiafarmerExpectScalars : ChiaFarmer ChiaFarmerSpec :=
  { TypeMeta := { Kind := "ChiaFarmer" },
    ObjectMeta := { Labels := some [("network", "false")] },
    Spec := { ChiaConfig := { FullNodePeer := "58444" } },
    Status := { Ready := true } }

/-! ## Child orders -/

/-- The order in which `ChiaCAReconciler.Reconcile` reconciles its children (lines 58-101). -/
def chiaca.childOrder : List Child :=
  [.ServiceAccount, .Role, .RoleBinding, .Job]

/-- The order in which `ChiaFarmerReconciler.Reconcile` reconciles its children
(lines 54-80). -/
def chiafarmer.childOrder : List Child :=
  [.BaseService, .ChiaExporterService, .Deployment]

/-- The order in which `ChiaWalletReconciler.Reconcile` reconciles its children
(lines 54-80). -/
def chiawallet.childOrder : List Child :=
  [.BaseService, .ChiaExporterService, .Deployment]

/-- The children that come before `K` in an order. -/
def childrenBefore (K : Child) (order : List Child) : List Child :=
  order.takeWhile (fun c => c ≠ K)

/-! ## Sample requests, objects and clusters -/

/-- A sample request. -/
def sampleRequest : Request :=
  { NamespacedName := { Namespace := "default", Name := "sample" } }

/-- A sample ChiaCA object. -/
def sampleCA : ChiaCA Unit :=
  { ObjectMeta := { Name := "sample", Namespace := "default" }, Spec := () }

/-- A sample ChiaFarmer object. -/
def sampleFarmer : ChiaFarmer Unit :=
  { ObjectMeta := { Name := "sample", Namespace := "default" }, Spec := () }

/-- The ChiaWallet of the scenario of the specification: `wallet-sample` with its full node
peer. -/
def walletSample : ChiaWallet :=
  { TypeMeta := { APIVersion := "k8s.chia.net/v1", Kind := "ChiaWallet" },
    ObjectMeta := { Name := "wallet-sample", Namespace := "default" },
    Spec := { ChiaConfig := { FullNodePeer := "node.default.svc.cluster.local:58444" } } }

/-- The request for `wallet-sample`. -/
def walletRequest : Request :=
  { NamespacedName := { Namespace := "default", Name := "wallet-sample" } }

/-- A NotFound error of the API server. -/
def errNotFound : Error :=
  { notFound := true, msg := "not found" }

/-- An error of the API server other than NotFound. -/
def errTimeout : Error :=
  { notFound := false, msg := "timeout" }

/-- A cluster given by a script: the answer `get` of the primary fetch, the child `failing`
whose reconcile returns `errTimeout` (every other child reconcile succeeds), the answers
`secretAt` of the secret queries and the answer `upd` of the status update. -/
def scripted {CR : Type} (get : Except Error CR) (failing : Option Child)
    (secretAt : Nat → Bool × Option Error) (upd : Option Error) : Cluster CR :=
  { Get := fun _ => get
    Reconcile := fun c _ => if failing = some c then (none, some errTimeout) else (none, none)
    getCASecret := fun n _ => secretAt n
    StatusUpdate := fun _ => upd }

/-- A secret that is never there. -/
def secretNever : Nat → Bool × Option Error :=
  fun _ => (true, none)

/-- A secret that is there from query `k` on. -/
def secretFrom (k : Nat) : Nat → Bool × Option Error :=
  fun n => (decide (n < k), none)

/-! ## Properties of the dispatchers -/

/-! ### The wait loop -/

/-- The wait loop reconciles no child. -/
theorem waitLoop_childCalls {S : Type} (cl : Cluster (ChiaCA S)) (req : Request)
    (ca : ChiaCA S) (n i : Nat) :
    List.filterMap Event.child? (chiaca.waitLoop cl req ca n i).2 = [] := by
  induction n generalizing i with
  | zero => simp [chiaca.waitLoop]
  | succ n ih =>
    have h := ih (i + 1)
    unfold chiaca.waitLoop
    simp only []
    split
    · simp [Event.child?]
    · split
      · split <;> simp [Event.child?]
      · rw [List.filterMap_append, h]
        simp [Event.child?]

/-- The wait loop deletes nothing. -/
theorem waitLoop_deletes {S : Type} (cl : Cluster (ChiaCA S)) (req : Request)
    (ca : ChiaCA S) (n i : Nat) : deletes (chiaca.waitLoop cl req ca n i).2 = 0 := by
  induction n generalizing i with
  | zero => simp [chiaca.waitLoop, deletes]
  | succ n ih =>
    have h := ih (i + 1)
    unfold chiaca.waitLoop
    simp only [deletes] at h ⊢
    split
    · simp [Event.isDelete, List.countP_cons]
    · split
      · split <;> simp [Event.isDelete, List.countP_cons]
      · simp [Event.isDelete, List.countP_cons, h]

/-- A failed child call is a child call. -/
theorem child_of_failedChild {CR : Type} (ev : Event CR) (K : Child)
    (h : ev.failedChild? = some K) : ev.child? = some K := by
  cases ev <;> simp_all [Event.failedChild?, Event.child?]
  rename_i c o e
  cases e <;> simp_all [Event.failedChild?]

/-- The wait loop adds no failed child call to a trace. -/
theorem waitLoop_failedChild {S : Type} (cl : Cluster (ChiaCA S)) (req : Request)
    (ca : ChiaCA S) (n i : Nat) (K : Child) (t : List (Event (ChiaCA S))) :
    (∃ ev ∈ t ++ (chiaca.waitLoop cl req ca n i).2, ev.failedChild? = some K) ↔
      ∃ ev ∈ t, ev.failedChild? = some K := by
  constructor
  · rintro ⟨ev, hev, h⟩
    rcases List.mem_append.1 hev with hev | hev
    · exact ⟨ev, hev, h⟩
    · have h1 := child_of_failedChild ev K h
      have h2 := waitLoop_childCalls cl req ca n i
      rw [List.filterMap_eq_nil_iff] at h2
      simp [h2 ev hev] at h1
  · rintro ⟨ev, hev, h⟩
    exact ⟨ev, List.mem_append.2 (Or.inl hev), h⟩

/-- The wait loop makes at most as many secret queries as it has iterations. -/
theorem waitLoop_secretChecks_le {S : Type} (cl : Cluster (ChiaCA S)) (req : Request)
    (ca : ChiaCA S) (n i : Nat) : secretChecks (chiaca.waitLoop cl req ca n i).2 ≤ n := by
  induction n generalizing i with
  | zero => simp [chiaca.waitLoop, secretChecks]
  | succ n ih =>
    have h := ih (i + 1)
    unfold chiaca.waitLoop
    simp only [secretChecks] at h ⊢
    split
    · simp [Event.isSecretQuery]
    · split
      · split <;> simp [Event.isSecretQuery]
      · simp [Event.isSecretQuery, List.countP_cons]
        omega

/-- A wait loop whose secret queries all answer not-found without error runs all its
iterations: it is left exhausted, after one secret query per iteration and without any status
update. -/
theorem waitLoop_never {S : Type} (cl : Cluster (ChiaCA S)) (req : Request)
    (ca : ChiaCA S) (n i : Nat)
    (h : ∀ j, i ≤ j → j < i + n → cl.getCASecret j ca = (true, none)) :
    (chiaca.waitLoop cl req ca n i).1 = .exhausted ∧
      secretChecks (chiaca.waitLoop cl req ca n i).2 = n ∧
      statusUpdates (chiaca.waitLoop cl req ca n i).2 = 0 := by
  induction n generalizing i with
  | zero => simp [chiaca.waitLoop, secretChecks, statusUpdates]
  | succ n ih =>
    have h0 := h i (le_refl i) (by omega)
    have h1 := ih (i + 1) (fun j hj hj' => h j (by omega) (by omega))
    unfold chiaca.waitLoop
    simp only [secretChecks, statusUpdates] at h1 ⊢
    simp [h0, h1, Event.isSecretQuery, Event.isStatusUpdate, List.countP_cons]

/-- A wait loop whose secret query number `k` is the first to find the secret makes the
queries `i` to `k` and no more, issues one status update, and is left by `break` exactly when
that update succeeds (by `return` otherwise). -/
theorem waitLoop_found {S : Type} (cl : Cluster (ChiaCA S)) (req : Request)
    (ca : ChiaCA S) (n i k : Nat) (hik : i ≤ k) (hkn : k < i + n)
    (h : ∀ j, i ≤ j → j < k → cl.getCASecret j ca = (true, none))
    (hk : cl.getCASecret k ca = (false, none)) :
    (chiaca.waitLoop cl req ca n i).1 ≠ .exhausted ∧
      secretChecks (chiaca.waitLoop cl req ca n i).2 = k + 1 - i ∧
      statusUpdates (chiaca.waitLoop cl req ca n i).2 = 1 ∧
      ((chiaca.waitLoop cl req ca n i).1 = .broke ↔
        cl.StatusUpdate { ca with Status := { ca.Status with Ready := true } } = none) := by
  induction n generalizing i with
  | zero => omega
  | succ n ih =>
    by_cases hi : i = k
    · subst hi
      unfold chiaca.waitLoop
      simp only [secretChecks, statusUpdates, hk]
      cases hu : cl.StatusUpdate { ca with Status := { ca.Status with Ready := true } } <;>
        simp [Event.isSecretQuery, Event.isStatusUpdate, List.countP_cons]
    · have h0 := h i (le_refl i) (by omega)
      have h1 := ih (i + 1) (by omega) (by omega) (fun j hj hj' => h j (by omega) hj')
      unfold chiaca.waitLoop
      simp only [secretChecks, statusUpdates] at h1 ⊢
      simp [h0, h1, Event.isSecretQuery, Event.isStatusUpdate, List.countP_cons]
      omega

/-- No reconcile call is among the interactions of the wait loop. -/
theorem mem_waitLoop_reconcile {S : Type} (cl : Cluster (ChiaCA S)) (req : Request)
    (ca owner : ChiaCA S) (n i : Nat) (c : Child) (e : Option Error) :
    Event.Reconcile c owner e ∈ (chiaca.waitLoop cl req ca n i).2 ↔ False := by
  have h := waitLoop_childCalls cl req ca n i
  rw [List.filterMap_eq_nil_iff] at h
  constructor
  · intro hm
    simpa [Event.child?] using h _ hm
  · exact False.elim

/-- A message built as prefix, namespaced name, text and cause contains the name. -/
theorem mentionsName_wrap (p s m : String) (n : NamespacedName) :
    mentionsName (p ++ n.String ++ s ++ m) n :=
  ⟨p.data, (s ++ m).data, by simp [String.data_append]⟩

/-- A message built as prefix, namespaced name and text contains the name. -/
theorem mentionsName_log (p s : String) (n : NamespacedName) :
    mentionsName (p ++ n.String ++ s) n :=
  ⟨p.data, s.data, by simp [String.data_append]⟩

/-- A wait loop left by `return` returns the empty result and the error answered to its last
secret query or to its status update, unchanged, after an error log line with the name. -/
theorem waitLoop_returned {S : Type} (cl : Cluster (ChiaCA S)) (req : Request)
    (ca : ChiaCA S) (n i : Nat) (res : Result) (err : Option Error)
    (h : (chiaca.waitLoop cl req ca n i).1 = .returned res err) :
    res = {} ∧ ∃ e, err = some e ∧
      (∃ ev ∈ (chiaca.waitLoop cl req ca n i).2, ev.clientErr? = some e) ∧
      ∃ msg, (chiaca.waitLoop cl req ca n i).2.getLast? = some (Event.LogError e msg) ∧
        mentionsName msg req.NamespacedName := by
  induction n generalizing i with
  | zero => simp [chiaca.waitLoop] at h
  | succ n ih =>
    unfold chiaca.waitLoop at h ⊢
    simp only [] at h ⊢
    cases hq : (cl.getCASecret i ca).2 with
    | some e =>
      simp only [hq, chiaca.LoopExit.returned.injEq] at h ⊢
      exact ⟨h.1.symm, e, h.2.symm, ⟨_, List.mem_cons_of_mem _ (List.mem_cons_self _ _), rfl⟩,
        _, rfl, mentionsName_log _ _ _⟩
    | none =>
      cases hb : (cl.getCASecret i ca).1 with
      | false =>
        cases hu : cl.StatusUpdate { ca with Status := { ca.Status with Ready := true } } with
        | some e =>
          simp [hq, hb, hu] at h ⊢
          exact ⟨h.1.symm, e, h.2.symm, by simp [Event.clientErr?],
            _, ⟨rfl, rfl⟩, mentionsName_log _ _ _⟩
        | none => simp [hq, hb, hu] at h
      | true =>
        simp only [hq, hb, Bool.not_true, Bool.false_eq_true, if_false] at h ⊢
        obtain ⟨h1, e, h2, ⟨ev, hev, hc⟩, msg, h3, h4⟩ := ih (i + 1) h
        refine ⟨h1, e, h2, ⟨ev, List.mem_append_right _ hev, hc⟩, msg, ?_, h4⟩
        rw [List.getLast?_append, h3]
        rfl

/-- ChiaCA: the error returned after a failed child reconcile mentions the request. -/
theorem chiaca_child_error_mentions {S : Type} (cc : Cluster (ChiaCA S)) (req : Request)
    (K : Child) (h : ∃ ev ∈ (chiaca.Reconcile cc req).trace, ev.failedChild? = some K) :
    ∃ e, (chiaca.Reconcile cc req).err = some e ∧ e.mentions req.NamespacedName := by
  unfold chiaca.Reconcile at h ⊢
  simp only [] at h ⊢
  repeat' split at h
  all_goals simp only [waitLoop_failedChild] at h
  all_goals simp_all [Event.failedChild?]
  all_goals exact mentionsName_wrap _ _ _ _

/-- ChiaCA: an error returned without a failed child reconcile is the error of a fetch, a
secret query or a status update, unchanged, logged with the name of the request. -/
theorem chiaca_client_error_unchanged {S : Type} (cc : Cluster (ChiaCA S)) (req : Request)
    (e : Error) (h : ∀ ev ∈ (chiaca.Reconcile cc req).trace, ev.failedChild? = none)
    (he : (chiaca.Reconcile cc req).err = some e) :
    (∃ ev ∈ (chiaca.Reconcile cc req).trace, ev.clientErr? = some e) ∧
      ∃ msg, (chiaca.Reconcile cc req).trace.getLast? = some (Event.LogError e msg) ∧
        mentionsName msg req.NamespacedName := by
  unfold chiaca.Reconcile at h he ⊢
  simp only [] at h he ⊢
  repeat' split at he
  all_goals simp_all [Event.failedChild?]
  all_goals first
    | (simp [Event.clientErr?]; exact mentionsName_log _ _ _)
    | (obtain ⟨_, e', h2, hmem, msg, h3, h4⟩ := waitLoop_returned _ _ _ _ _ _ _
        ‹(chiaca.waitLoop _ _ _ _ _).1 = _›
       simp only [Option.some.injEq] at h2
       subst h2
       refine ⟨by simp [hmem], msg, ?_, h4⟩
       rw [List.getLast?_cons, h3]
       rfl)

/-- ChiaFarmer: the error returned after a failed child reconcile mentions the request. -/
theorem chiafarmer_child_error_mentions {T : Type} (cc : Cluster (ChiaFarmer T)) (req : Request)
    (K : Child) (h : ∃ ev ∈ (chiafarmer.Reconcile cc req).trace, ev.failedChild? = some K) :
    ∃ e, (chiafarmer.Reconcile cc req).err = some e ∧ e.mentions req.NamespacedName := by
  unfold chiafarmer.Reconcile at h ⊢
  simp only [] at h ⊢
  repeat' split at h
  all_goals simp_all [Event.failedChild?]
  all_goals exact mentionsName_wrap _ _ _ _

/-- ChiaFarmer: an error returned without a failed child reconcile is the error of the fetch or of
the status update, unchanged, logged with the name of the request. -/
theorem chiafarmer_client_error_unchanged {T : Type} (cc : Cluster (ChiaFarmer T)) (req : Request)
    (e : Error) (h : ∀ ev ∈ (chiafarmer.Reconcile cc req).trace, ev.failedChild? = none)
    (he : (chiafarmer.Reconcile cc req).err = some e) :
    (∃ ev ∈ (chiafarmer.Reconcile cc req).trace, ev.clientErr? = some e) ∧
      ∃ msg, (chiafarmer.Reconcile cc req).trace.getLast? = some (Event.LogError e msg) ∧
        mentionsName msg req.NamespacedName := by
  unfold chiafarmer.Reconcile at h he ⊢
  simp only [] at h he ⊢
  repeat' split at he
  all_goals simp_all [Event.failedChild?, IgnoreNotFound]
  all_goals simp [Event.clientErr?]
  all_goals exact mentionsName_log _ _ _

/-- ChiaWallet: the error returned after a failed child reconcile mentions the request. -/
theorem chiawallet_child_error_mentions (cc : Cluster ChiaWallet) (req : Request)
    (K : Child) (h : ∃ ev ∈ (chiawallet.Reconcile cc req).trace, ev.failedChild? = some K) :
    ∃ e, (chiawallet.Reconcile cc req).err = some e ∧ e.mentions req.NamespacedName := by
  unfold chiawallet.Reconcile at h ⊢
  simp only [] at h ⊢
  repeat' split at h
  all_goals simp_all [Event.failedChild?]
  all_goals exact mentionsName_wrap _ _ _ _

/-- ChiaWallet: an error returned without a failed child reconcile is the error of the fetch or of
the status update, unchanged, logged with the name of the request. -/
theorem chiawallet_client_error_unchanged (cc : Cluster ChiaWallet) (req : Request)
    (e : Error) (h : ∀ ev ∈ (chiawallet.Reconcile cc req).trace, ev.failedChild? = none)
    (he : (chiawallet.Reconcile cc req).err = some e) :
    (∃ ev ∈ (chiawallet.Reconcile cc req).trace, ev.clientErr? = some e) ∧
      ∃ msg, (chiawallet.Reconcile cc req).trace.getLast? = some (Event.LogError e msg) ∧
        mentionsName msg req.NamespacedName := by
  unfold chiawallet.Reconcile at h he ⊢
  simp only [] at h he ⊢
  repeat' split at he
  all_goals simp_all [Event.failedChild?, IgnoreNotFound]
  all_goals simp [Event.clientErr?]
  all_goals exact mentionsName_log _ _ _

/-! ### Child order -/

/-- In a prefix of the ChiaCA order, the Role comes before the RoleBinding. -/
theorem role_before_roleBinding (pre post : List Child)
    (h : pre ++ Child.RoleBinding :: post <+:
      [Child.ServiceAccount, Child.Role, Child.RoleBinding, Child.Job]) :
    Child.Role ∈ pre := by
  obtain ⟨t, ht⟩ := h
  rcases pre with _ | ⟨a, _ | ⟨b, pre⟩⟩ <;> simp_all

/-- In a prefix of the farmer and wallet order, both Services come before the Deployment. -/
theorem services_before_deployment (pre post : List Child)
    (h : pre ++ Child.Deployment :: post <+:
      [Child.BaseService, Child.ChiaExporterService, Child.Deployment]) :
    Child.BaseService ∈ pre ∧ Child.ChiaExporterService ∈ pre := by
  obtain ⟨t, ht⟩ := h
  rcases pre with _ | ⟨a, _ | ⟨b, pre⟩⟩ <;> simp_all

/-- The child calls of a ChiaCA invocation are a prefix of the ChiaCA order. -/
theorem chiaca_childCalls_order {S : Type} (cl : Cluster (ChiaCA S)) (req : Request) :
    childCalls (chiaca.Reconcile cl req).trace <+:
      [Child.ServiceAccount, Child.Role, Child.RoleBinding, Child.Job] := by
  unfold chiaca.Reconcile
  simp only []
  repeat' split
  all_goals simp only [childCalls, List.filterMap_append, waitLoop_childCalls,
    List.filterMap_cons, List.filterMap_nil, Event.child?, List.nil_append, List.append_nil,
    List.cons_append]
  all_goals decide

/-- The child calls of a ChiaFarmer invocation are a prefix of the farmer order. -/
theorem chiafarmer_childCalls_order {T : Type} (cl : Cluster (ChiaFarmer T))
    (req : Request) :
    childCalls (chiafarmer.Reconcile cl req).trace <+:
      [Child.BaseService, Child.ChiaExporterService, Child.Deployment] := by
  unfold chiafarmer.Reconcile
  simp only []
  repeat' split
  all_goals simp only [childCalls, List.filterMap_append,
    List.filterMap_cons, List.filterMap_nil, Event.child?, List.nil_append, List.append_nil,
    List.cons_append]
  all_goals decide

/-- The child calls of a ChiaWallet invocation are a prefix of the wallet order. -/
theorem chiawallet_childCalls_order (cl : Cluster ChiaWallet) (req : Request) :
    childCalls (chiawallet.Reconcile cl req).trace <+:
      [Child.BaseService, Child.ChiaExporterService, Child.Deployment] := by
  unfold chiawallet.Reconcile
  simp only []
  repeat' split
  all_goals simp only [childCalls, List.filterMap_append,
    List.filterMap_cons, List.filterMap_nil, Event.child?, List.nil_append, List.append_nil,
    List.cons_append]
  all_goals decide

/-- C1, deletion transparency: in each of the three dispatchers, when the primary fetch fails
with a NotFound error, `Reconcile` returns the empty result and a nil error, and its trace has
no child reconcile call, no secret query and no status update. -/
theorem deletion_transparency {S T : Type} (cc : Cluster (ChiaCA S))
    (cf : Cluster (ChiaFarmer T)) (cw : Cluster ChiaWallet) (req : Request) :
    (∀ e, cc.Get req.NamespacedName = .error e → IsNotFound (some e) = true →
      (chiaca.Reconcile cc req).result = {} ∧ (chiaca.Reconcile cc req).err = none ∧
      childCalls (chiaca.Reconcile cc req).trace = [] ∧
      secretChecks (chiaca.Reconcile cc req).trace = 0 ∧
      statusUpdates (chiaca.Reconcile cc req).trace = 0) ∧
    (∀ e, cf.Get req.NamespacedName = .error e → IsNotFound (some e) = true →
      (chiafarmer.Reconcile cf req).result = {} ∧ (chiafarmer.Reconcile cf req).err = none ∧
      childCalls (chiafarmer.Reconcile cf req).trace = [] ∧
      secretChecks (chiafarmer.Reconcile cf req).trace = 0 ∧
      statusUpdates (chiafarmer.Reconcile cf req).trace = 0) ∧
    (∀ e, cw.Get req.NamespacedName = .error e → IsNotFound (some e) = true →
      (chiawallet.Reconcile cw req).result = {} ∧ (chiawallet.Reconcile cw req).err = none ∧
      childCalls (chiawallet.Reconcile cw req).trace = [] ∧
      secretChecks (chiawallet.Reconcile cw req).trace = 0 ∧
      statusUpdates (chiawallet.Reconcile cw req).trace = 0) := by
  refine ⟨?_, ?_, ?_⟩ <;> intro e hget hnf
  · simp [chiaca.Reconcile, hget, hnf, childCalls, secretChecks, statusUpdates, Event.child?,
      Event.isSecretQuery, Event.isStatusUpdate]
  · simp [chiafarmer.Reconcile, hget, hnf, childCalls, secretChecks, statusUpdates, Event.child?,
      Event.isSecretQuery, Event.isStatusUpdate]
  · simp [chiawallet.Reconcile, hget, hnf, childCalls, secretChecks, statusUpdates, Event.child?,
      Event.isSecretQuery, Event.isStatusUpdate]

/-- Witness of C1: the three dispatchers on a cluster whose primary fetch answers NotFound. -/
theorem deletion_transparency_witness :
    (chiaca.Reconcile (scripted (.error errNotFound) none secretNever none :
        Cluster (ChiaCA Unit)) sampleRequest).err = none ∧
    (chiafarmer.Reconcile (scripted (.error errNotFound) none secretNever none :
        Cluster (ChiaFarmer Unit)) sampleRequest).err = none ∧
    (chiawallet.Reconcile (scripted (.error errNotFound) none secretNever none)
        sampleRequest).err = none :=
  have h := deletion_transparency
    (scripted (.error errNotFound) none secretNever none : Cluster (ChiaCA Unit))
    (scripted (.error errNotFound) none secretNever none : Cluster (ChiaFarmer Unit))
    (scripted (.error errNotFound) none secretNever none) sampleRequest
  ⟨(h.1 errNotFound rfl rfl).2.1, (h.2.1 errNotFound rfl rfl).2.1,
    (h.2.2 errNotFound rfl rfl).2.1⟩

/-- C2, fetch-error propagation: in each of the three dispatchers, when the primary fetch
fails with an error that is not NotFound, `Reconcile` returns that very error (also through
`client.IgnoreNotFound`) with the empty result, the fetch is its last call to a collaborator,
and its trace has no child reconcile call, no secret query and no status update. -/
theorem fetch_error_propagation {S T : Type} (cc : Cluster (ChiaCA S))
    (cf : Cluster (ChiaFarmer T)) (cw : Cluster ChiaWallet) (req : Request) :
    (∀ e, cc.Get req.NamespacedName = .error e → IsNotFound (some e) = false →
      (chiaca.Reconcile cc req).result = {} ∧ (chiaca.Reconcile cc req).err = some e ∧
      calls (chiaca.Reconcile cc req).trace = [.Get req.NamespacedName (some e)] ∧
      childCalls (chiaca.Reconcile cc req).trace = [] ∧
      secretChecks (chiaca.Reconcile cc req).trace = 0 ∧
      statusUpdates (chiaca.Reconcile cc req).trace = 0) ∧
    (∀ e, cf.Get req.NamespacedName = .error e → IsNotFound (some e) = false →
      (chiafarmer.Reconcile cf req).result = {} ∧ (chiafarmer.Reconcile cf req).err = some e ∧
      IgnoreNotFound (some e) = some e ∧
      calls (chiafarmer.Reconcile cf req).trace = [.Get req.NamespacedName (some e)] ∧
      childCalls (chiafarmer.Reconcile cf req).trace = [] ∧
      secretChecks (chiafarmer.Reconcile cf req).trace = 0 ∧
      statusUpdates (chiafarmer.Reconcile cf req).trace = 0) ∧
    (∀ e, cw.Get req.NamespacedName = .error e → IsNotFound (some e) = false →
      (chiawallet.Reconcile cw req).result = {} ∧ (chiawallet.Reconcile cw req).err = some e ∧
      IgnoreNotFound (some e) = some e ∧
      calls (chiawallet.Reconcile cw req).trace = [.Get req.NamespacedName (some e)] ∧
      childCalls (chiawallet.Reconcile cw req).trace = [] ∧
      secretChecks (chiawallet.Reconcile cw req).trace = 0 ∧
      statusUpdates (chiawallet.Reconcile cw req).trace = 0) := by
  refine ⟨?_, ?_, ?_⟩ <;> intro e hget hnf
  · simp [chiaca.Reconcile, hget, hnf, childCalls, secretChecks, statusUpdates, calls, Event.child?,
      Event.isSecretQuery, Event.isStatusUpdate, Event.isLog]
  · simp [chiafarmer.Reconcile, hget, hnf, IgnoreNotFound, childCalls, secretChecks, statusUpdates, calls,
      Event.child?, Event.isSecretQuery, Event.isStatusUpdate, Event.isLog]
  · simp [chiawallet.Reconcile, hget, hnf, IgnoreNotFound, childCalls, secretChecks, statusUpdates, calls,
      Event.child?, Event.isSecretQuery, Event.isStatusUpdate, Event.isLog]

/-- Witness of C2: the three dispatchers on a cluster whose primary fetch times out. -/
theorem fetch_error_propagation_witness :
    (chiaca.Reconcile (scripted (.error errTimeout) none secretNever none :
        Cluster (ChiaCA Unit)) sampleRequest).err = some errTimeout ∧
    (chiafarmer.Reconcile (scripted (.error errTimeout) none secretNever none :
        Cluster (ChiaFarmer Unit)) sampleRequest).err = some errTimeout ∧
    (chiawallet.Reconcile (scripted (.error errTimeout) none secretNever none)
        sampleRequest).err = some errTimeout :=
  have h := fetch_error_propagation
    (scripted (.error errTimeout) none secretNever none : Cluster (ChiaCA Unit))
    (scripted (.error errTimeout) none secretNever none : Cluster (ChiaFarmer Unit))
    (scripted (.error errTimeout) none secretNever none) sampleRequest
  ⟨(h.1 errTimeout rfl rfl).2.1, (h.2.1 errTimeout rfl rfl).2.1,
    (h.2.2 errTimeout rfl rfl).2.1⟩

/-- C3, dependency ordering: whatever the cluster answers, the child reconcile calls of an
invocation are a prefix of the fixed order of the kind (ServiceAccount, Role, RoleBinding, Job
for ChiaCA; base Service, chia-exporter Service, Deployment for ChiaFarmer and ChiaWallet),
no child is attempted twice, a RoleBinding call has the Role call before it and a Deployment
call has both Service calls before it. -/
theorem dependency_ordering {S T : Type} (cc : Cluster (ChiaCA S))
    (cf : Cluster (ChiaFarmer T)) (cw : Cluster ChiaWallet) (req : Request) :
    (childCalls (chiaca.Reconcile cc req).trace <+:
        [Child.ServiceAccount, Child.Role, Child.RoleBinding, Child.Job] ∧
      (childCalls (chiaca.Reconcile cc req).trace).Nodup ∧
      ∀ pre post, childCalls (chiaca.Reconcile cc req).trace = pre ++ Child.RoleBinding :: post →
        Child.Role ∈ pre) ∧
    (childCalls (chiafarmer.Reconcile cf req).trace <+:
        [Child.BaseService, Child.ChiaExporterService, Child.Deployment] ∧
      (childCalls (chiafarmer.Reconcile cf req).trace).Nodup ∧
      ∀ pre post, childCalls (chiafarmer.Reconcile cf req).trace = pre ++ Child.Deployment :: post →
        Child.BaseService ∈ pre ∧ Child.ChiaExporterService ∈ pre) ∧
    (childCalls (chiawallet.Reconcile cw req).trace <+:
        [Child.BaseService, Child.ChiaExporterService, Child.Deployment] ∧
      (childCalls (chiawallet.Reconcile cw req).trace).Nodup ∧
      ∀ pre post, childCalls (chiawallet.Reconcile cw req).trace = pre ++ Child.Deployment :: post →
        Child.BaseService ∈ pre ∧ Child.ChiaExporterService ∈ pre) := by
  have hc := chiaca_childCalls_order cc req
  have hf := chiafarmer_childCalls_order cf req
  have hw := chiawallet_childCalls_order cw req
  refine ⟨⟨hc, ?_, ?_⟩, ⟨hf, ?_, ?_⟩, ⟨hw, ?_, ?_⟩⟩
  · exact (List.IsPrefix.sublist hc).nodup (by decide)
  · intro pre post h
    exact role_before_roleBinding pre post (h ▸ hc)
  · exact (List.IsPrefix.sublist hf).nodup (by decide)
  · intro pre post h
    exact services_before_deployment pre post (h ▸ hf)
  · exact (List.IsPrefix.sublist hw).nodup (by decide)
  · intro pre post h
    exact services_before_deployment pre post (h ▸ hw)

/-- Witness of C3: a ChiaCA invocation whose secret appears at the third check of the wait
loop, and a farmer and a wallet invocation where everything succeeds. -/
theorem dependency_ordering_witness :
    childCalls (chiaca.Reconcile (scripted (.ok sampleCA) none (secretFrom 3) none)
      sampleRequest).trace =
      [Child.ServiceAccount, Child.Role] ++ Child.RoleBinding :: [Child.Job] ∧
    Child.Role ∈ [Child.ServiceAccount, Child.Role] ∧
    (Child.BaseService ∈ [Child.BaseService, Child.ChiaExporterService] ∧
      Child.ChiaExporterService ∈ [Child.BaseService, Child.ChiaExporterService]) ∧
    (Child.BaseService ∈ [Child.BaseService, Child.ChiaExporterService] ∧
      Child.ChiaExporterService ∈ [Child.BaseService, Child.ChiaExporterService]) :=
  have h := dependency_ordering
    (scripted (.ok sampleCA) none (secretFrom 3) none)
    (scripted (.ok sampleFarmer) none secretNever none)
    (scripted (.ok walletSample) none secretNever none) sampleRequest
  ⟨by decide, h.1.2.2 [Child.ServiceAccount, Child.Role] [Child.Job] (by decide),
    h.2.1.2.2 [Child.BaseService, Child.ChiaExporterService] [] (by decide),
    h.2.2.2.2 [Child.BaseService, Child.ChiaExporterService] [] (by decide)⟩

/-- C4, first failure aborts: in each of the three dispatchers and for every child `K` of its
order, when the cluster answers the primary fetch with the object, the reconcile of every
child before `K` without error (and, for the Job, the first secret query with not-found and
no error, so that the Job is reconciled at all) and the reconcile of `K` with an error, then
`Reconcile` returns a non-nil error and the result the child reconciler returned, the child
calls are the children before `K` followed by `K`, that failing call is the last interaction
of the invocation, and the trace has no status update and no delete. -/
theorem first_failure_aborts {S T : Type} (cc : Cluster (ChiaCA S))
    (cf : Cluster (ChiaFarmer T)) (cw : Cluster ChiaWallet) (req : Request) :
    (∀ ca K e, cc.Get req.NamespacedName = .ok ca → K ∈ chiaca.childOrder →
      (∀ c ∈ childrenBefore K chiaca.childOrder, (cc.Reconcile c ca).2 = none) →
      (K = Child.Job → cc.getCASecret 0 ca = (true, none)) →
      (cc.Reconcile K ca).2 = some e →
      (chiaca.Reconcile cc req).err ≠ none ∧
      (chiaca.Reconcile cc req).result = derefResult (cc.Reconcile K ca).1 ∧
      childCalls (chiaca.Reconcile cc req).trace =
        childrenBefore K chiaca.childOrder ++ [K] ∧
      (chiaca.Reconcile cc req).trace.getLast? = some (Event.Reconcile K ca (some e)) ∧
      statusUpdates (chiaca.Reconcile cc req).trace = 0 ∧
      deletes (chiaca.Reconcile cc req).trace = 0) ∧
    (∀ farmer K e, cf.Get req.NamespacedName = .ok farmer → K ∈ chiafarmer.childOrder →
      (∀ c ∈ childrenBefore K chiafarmer.childOrder, (cf.Reconcile c farmer).2 = none) →
      (cf.Reconcile K farmer).2 = some e →
      (chiafarmer.Reconcile cf req).err ≠ none ∧
      (chiafarmer.Reconcile cf req).result = derefResult (cf.Reconcile K farmer).1 ∧
      childCalls (chiafarmer.Reconcile cf req).trace =
        childrenBefore K chiafarmer.childOrder ++ [K] ∧
      (chiafarmer.Reconcile cf req).trace.getLast? =
        some (Event.Reconcile K farmer (some e)) ∧
      statusUpdates (chiafarmer.Reconcile cf req).trace = 0 ∧
      deletes (chiafarmer.Reconcile cf req).trace = 0) ∧
    (∀ wallet K e, cw.Get req.NamespacedName = .ok wallet → K ∈ chiawallet.childOrder →
      (∀ c ∈ childrenBefore K chiawallet.childOrder, (cw.Reconcile c wallet).2 = none) →
      (cw.Reconcile K wallet).2 = some e →
      (chiawallet.Reconcile cw req).err ≠ none ∧
      (chiawallet.Reconcile cw req).result = derefResult (cw.Reconcile K wallet).1 ∧
      childCalls (chiawallet.Reconcile cw req).trace =
        childrenBefore K chiawallet.childOrder ++ [K] ∧
      (chiawallet.Reconcile cw req).trace.getLast? =
        some (Event.Reconcile K wallet (some e)) ∧
      statusUpdates (chiawallet.Reconcile cw req).trace = 0 ∧
      deletes (chiawallet.Reconcile cw req).trace = 0) := by
  refine ⟨?_, ?_, ?_⟩
  · intro ca K e hget hK hbefore hsec hfail
    cases K <;>
      simp [chiaca.childOrder, childrenBefore, List.takeWhile] at hK hbefore hsec ⊢ <;>
      simp [chiaca.Reconcile, hget, hfail, hbefore, hsec, childCalls, statusUpdates, deletes,
        Event.child?, Event.isStatusUpdate, Event.isDelete, List.countP_cons]
  · intro farmer K e hget hK hbefore hfail
    cases K <;>
      simp [chiafarmer.childOrder, childrenBefore, List.takeWhile] at hK hbefore ⊢ <;>
      simp [chiafarmer.Reconcile, hget, hfail, hbefore, childCalls, statusUpdates, deletes,
        Event.child?, Event.isStatusUpdate, Event.isDelete, List.countP_cons]
  · intro wallet K e hget hK hbefore hfail
    cases K <;>
      simp [chiawallet.childOrder, childrenBefore, List.takeWhile] at hK hbefore ⊢ <;>
      simp [chiawallet.Reconcile, hget, hfail, hbefore, childCalls, statusUpdates, deletes,
        Event.child?, Event.isStatusUpdate, Event.isDelete, List.countP_cons]

/-- Witness of C4: a ChiaCA invocation whose Job reconcile fails, a farmer invocation whose
chia-exporter Service reconcile fails and a wallet invocation whose Deployment reconcile
fails. -/
theorem first_failure_aborts_witness :
    (chiaca.Reconcile (scripted (.ok sampleCA) (some .Job) secretNever none)
      sampleRequest).err ≠ none ∧
    childCalls (chiafarmer.Reconcile (scripted (.ok sampleFarmer) (some .ChiaExporterService)
      secretNever none) sampleRequest).trace =
      childrenBefore .ChiaExporterService chiafarmer.childOrder ++ [.ChiaExporterService] ∧
    statusUpdates (chiawallet.Reconcile (scripted (.ok walletSample) (some .Deployment)
      secretNever none) walletRequest).trace = 0 :=
  ⟨((first_failure_aborts (scripted (.ok sampleCA) (some .Job) secretNever none)
      (scripted (.ok sampleFarmer) none secretNever none)
      (scripted (.ok walletSample) none secretNever none) sampleRequest).1
      sampleCA .Job errTimeout rfl (by decide) (by decide) (fun _ => rfl) rfl).1,
    ((first_failure_aborts (scripted (.ok sampleCA) none secretNever none)
      (scripted (.ok sampleFarmer) (some .ChiaExporterService) secretNever none)
      (scripted (.ok walletSample) none secretNever none) sampleRequest).2.1
      sampleFarmer .ChiaExporterService errTimeout rfl (by decide) (by decide) rfl).2.2.1,
    ((first_failure_aborts (scripted (.ok sampleCA) none secretNever none)
      (scripted (.ok sampleFarmer) none secretNever none)
      (scripted (.ok walletSample) (some .Deployment) secretNever none) walletRequest).2.2
      walletSample .Deployment errTimeout rfl (by decide) (by decide) rfl).2.2.2.2.1⟩

/-- C5, bounded wait: the wait loop of the ChiaCA dispatcher (bound 100, started at iteration
1) is a total function that makes at most 100 secret queries whatever the cluster answers;
when no query of the iterations 1 to 100 finds the secret or errors, it makes exactly 100
queries and is then left because the bound is exceeded; when the query of iteration `k`
(`1 ≤ k ≤ 100`) is the first to find the secret, it makes exactly `k` queries and is left
before the bound. -/
theorem bounded_wait {S : Type} (cl : Cluster (ChiaCA S)) (req : Request) (ca : ChiaCA S) :
    secretChecks (chiaca.waitLoop cl req ca 100 1).2 ≤ 100 ∧
    ((∀ j, 1 ≤ j → j ≤ 100 → cl.getCASecret j ca = (true, none)) →
      secretChecks (chiaca.waitLoop cl req ca 100 1).2 = 100 ∧
      (chiaca.waitLoop cl req ca 100 1).1 = .exhausted) ∧
    (∀ k, 1 ≤ k → k ≤ 100 →
      (∀ j, 1 ≤ j → j < k → cl.getCASecret j ca = (true, none)) →
      cl.getCASecret k ca = (false, none) →
      secretChecks (chiaca.waitLoop cl req ca 100 1).2 = k ∧
      (chiaca.waitLoop cl req ca 100 1).1 ≠ .exhausted) := by
  refine ⟨waitLoop_secretChecks_le cl req ca 100 1, ?_, ?_⟩
  · intro h
    have h1 := waitLoop_never cl req ca 100 1 (fun j hj hj' => h j hj (by omega))
    exact ⟨h1.2.1, h1.1⟩
  · intro k hk1 hk2 h hk
    have h1 := waitLoop_found cl req ca 100 1 k hk1 (by omega) h hk
    exact ⟨by have := h1.2.1; omega, h1.1⟩

/-- Witness of C5: the wait loop on a secret that never appears makes 100 queries, and on a
secret that appears at the third query of the loop makes 3 queries. -/
theorem bounded_wait_witness :
    secretChecks (chiaca.waitLoop (scripted (.ok sampleCA) none secretNever none)
      sampleRequest sampleCA 100 1).2 = 100 ∧
    secretChecks (chiaca.waitLoop (scripted (.ok sampleCA) none (secretFrom 3) none)
      sampleRequest sampleCA 100 1).2 = 3 :=
  ⟨((bounded_wait (scripted (.ok sampleCA) none secretNever none) sampleRequest
      sampleCA).2.1 (fun _ _ _ => rfl)).1,
    ((bounded_wait (scripted (.ok sampleCA) none (secretFrom 3) none) sampleRequest
      sampleCA).2.2 3 (by decide) (by decide)
      (fun j _ hj => by simp [scripted, secretFrom, hj]) rfl).1⟩

/-- C6 at the failing input: in a ChiaCA invocation where the three RBAC children converge
and the first secret query finds the secret, `Reconcile` returns the empty result and a nil
error after observing the secret once, and has issued no status update: `Status.Ready` is
not set. -/
theorem ready_not_set_when_secret_preexists :
    (chiaca.Reconcile (scripted (.ok sampleCA) none (secretFrom 0) none)
      sampleRequest).err = none ∧
    (chiaca.Reconcile (scripted (.ok sampleCA) none (secretFrom 0) none)
      sampleRequest).result = {} ∧
    childCalls (chiaca.Reconcile (scripted (.ok sampleCA) none (secretFrom 0) none)
      sampleRequest).trace = [Child.ServiceAccount, Child.Role, Child.RoleBinding] ∧
    List.countP Event.isSecretFound (chiaca.Reconcile (scripted (.ok sampleCA) none
      (secretFrom 0) none) sampleRequest).trace = 1 ∧
    statusUpdates (chiaca.Reconcile (scripted (.ok sampleCA) none (secretFrom 0) none)
      sampleRequest).trace = 0 := by
  decide

/-- C7, wait-exhausted falls through: in a ChiaCA invocation where the Job reconcile
succeeded and the secret queries of the iterations 1 to 100 of the wait loop all answer
not-found without error, `Reconcile` returns the empty result (no requeue, no requeue-after)
and a nil error, after 101 secret queries and without any status update. -/
theorem wait_exhausted_falls_through {S : Type} (cl : Cluster (ChiaCA S)) (req : Request)
    (ca : ChiaCA S)
    (hjob : Event.Reconcile Child.Job ca none ∈ (chiaca.Reconcile cl req).trace)
    (hloop : ∀ j, 1 ≤ j → j ≤ 100 → cl.getCASecret j ca = (true, none)) :
    (chiaca.Reconcile cl req).result = { Requeue := false, RequeueAfter := 0 } ∧
    (chiaca.Reconcile cl req).err = none ∧
    secretChecks (chiaca.Reconcile cl req).trace = 101 ∧
    statusUpdates (chiaca.Reconcile cl req).trace = 0 := by
  have hn := waitLoop_never cl req ca 100 1 (fun j hj hj' => hloop j hj (by omega))
  obtain ⟨hn1, hn2, hn3⟩ := hn
  simp only [secretChecks, statusUpdates] at hn2 hn3
  unfold chiaca.Reconcile at hjob ⊢
  simp only [] at hjob ⊢
  repeat' split at hjob
  all_goals simp only [List.mem_append, mem_waitLoop_reconcile, or_false] at hjob
  all_goals simp_all [secretChecks, statusUpdates, Event.isSecretQuery, Event.isStatusUpdate,
    List.countP_cons]

/-- Witness of C7: a ChiaCA invocation on a cluster where every child converges and the
secret never appears. -/
theorem wait_exhausted_falls_through_witness :
    (chiaca.Reconcile (scripted (.ok sampleCA) none secretNever none) sampleRequest).err = none ∧
    statusUpdates (chiaca.Reconcile (scripted (.ok sampleCA) none secretNever none)
      sampleRequest).trace = 0 :=
  have h := wait_exhausted_falls_through (scripted (.ok sampleCA) none secretNever none)
    sampleRequest sampleCA
    (by simp [chiaca.Reconcile, scripted, secretNever]; split <;> simp)
    (fun _ _ _ => rfl)
  ⟨h.2.1, h.2.2.2⟩

/-- C8 fails as stated: the error returned after a failed primary fetch, after a failed CA
secret query and after a failed status update is the error of the client itself, whose
message does not contain the namespaced name of the request. -/
theorem errors_carry_identity_counterexample :
    ¬ errTimeout.mentions sampleRequest.NamespacedName ∧
    (chiaca.Reconcile (scripted (.error errTimeout) none secretNever none :
      Cluster (ChiaCA Unit)) sampleRequest).err = some errTimeout ∧
    (chiaca.Reconcile (scripted (.ok sampleCA) none (fun _ => (false, some errTimeout)) none)
      sampleRequest).err = some errTimeout ∧
    (chiafarmer.Reconcile (scripted (.error errTimeout) none secretNever none :
      Cluster (ChiaFarmer Unit)) sampleRequest).err = some errTimeout ∧
    (chiawallet.Reconcile (scripted (.ok walletSample) none secretNever (some errTimeout))
      sampleRequest).err = some errTimeout := by
  decide

/-- C8 as amended: in each of the three dispatchers, the error returned after a failed child
reconcile is a fresh error whose message contains the namespaced name of the request; an
error returned when no child reconcile failed is the error answered to the primary fetch, to
a CA secret query or to the status update, returned unchanged, and the last interaction of
the invocation is the error log line, which carries the namespaced name. -/
theorem child_errors_carry_identity {S T : Type} (cc : Cluster (ChiaCA S))
    (cf : Cluster (ChiaFarmer T)) (cw : Cluster ChiaWallet) (req : Request) :
    ((∀ K, (∃ ev ∈ (chiaca.Reconcile cc req).trace, ev.failedChild? = some K) →
        ∃ e, (chiaca.Reconcile cc req).err = some e ∧ e.mentions req.NamespacedName) ∧
      ∀ e, (∀ ev ∈ (chiaca.Reconcile cc req).trace, ev.failedChild? = none) →
        (chiaca.Reconcile cc req).err = some e →
        (∃ ev ∈ (chiaca.Reconcile cc req).trace, ev.clientErr? = some e) ∧
        ∃ msg, (chiaca.Reconcile cc req).trace.getLast? = some (Event.LogError e msg) ∧
          mentionsName msg req.NamespacedName) ∧
    ((∀ K, (∃ ev ∈ (chiafarmer.Reconcile cf req).trace, ev.failedChild? = some K) →
        ∃ e, (chiafarmer.Reconcile cf req).err = some e ∧ e.mentions req.NamespacedName) ∧
      ∀ e, (∀ ev ∈ (chiafarmer.Reconcile cf req).trace, ev.failedChild? = none) →
        (chiafarmer.Reconcile cf req).err = some e →
        (∃ ev ∈ (chiafarmer.Reconcile cf req).trace, ev.clientErr? = some e) ∧
        ∃ msg, (chiafarmer.Reconcile cf req).trace.getLast? = some (Event.LogError e msg) ∧
          mentionsName msg req.NamespacedName) ∧
    ((∀ K, (∃ ev ∈ (chiawallet.Reconcile cw req).trace, ev.failedChild? = some K) →
        ∃ e, (chiawallet.Reconcile cw req).err = some e ∧ e.mentions req.NamespacedName) ∧
      ∀ e, (∀ ev ∈ (chiawallet.Reconcile cw req).trace, ev.failedChild? = none) →
        (chiawallet.Reconcile cw req).err = some e →
        (∃ ev ∈ (chiawallet.Reconcile cw req).trace, ev.clientErr? = some e) ∧
        ∃ msg, (chiawallet.Reconcile cw req).trace.getLast? = some (Event.LogError e msg) ∧
          mentionsName msg req.NamespacedName) :=
  ⟨⟨fun K h => chiaca_child_error_mentions cc req K h,
      fun e h he => chiaca_client_error_unchanged cc req e h he⟩,
    ⟨fun K h => chiafarmer_child_error_mentions cf req K h,
      fun e h he => chiafarmer_client_error_unchanged cf req e h he⟩,
    ⟨fun K h => chiawallet_child_error_mentions cw req K h,
      fun e h he => chiawallet_client_error_unchanged cw req e h he⟩⟩

/-- Witness of C8 as amended: a ChiaCA invocation whose Role reconcile fails returns an error
that mentions the request, and a wallet invocation whose status update fails returns the
error of the update after logging it. -/
theorem child_errors_carry_identity_witness :
    (∃ e, (chiaca.Reconcile (scripted (.ok sampleCA) (some .Role) secretNever none)
      sampleRequest).err = some e ∧ e.mentions sampleRequest.NamespacedName) ∧
    ∃ msg, (chiawallet.Reconcile (scripted (.ok walletSample) none secretNever
      (some errTimeout)) sampleRequest).trace.getLast? = some (Event.LogError errTimeout msg) ∧
      mentionsName msg sampleRequest.NamespacedName :=
  have h := child_errors_carry_identity
    (scripted (.ok sampleCA) (some .Role) secretNever none)
    (scripted (.ok sampleFarmer) none secretNever none)
    (scripted (.ok walletSample) none secretNever (some errTimeout)) sampleRequest
  ⟨h.1.1 .Role ⟨.Reconcile .Role sampleCA (some errTimeout),
      by simp [chiaca.Reconcile, scripted], rfl⟩,
    (h.2.2.2 errTimeout (by simp [chiawallet.Reconcile, scripted, Event.failedChild?])
      (by decide)).2⟩

/-- C9, status update of ChiaFarmer and ChiaWallet: when the primary fetch and the three child
reconciles succeed, the collaborator calls of the invocation are the fetch, the three child
reconciles in order and then one status update, on the fetched object with `Status.Ready`
set to true; `Reconcile` returns the empty result and what the update answered (nil when it
succeeds, its error when it fails), and issues no delete. -/
theorem status_update_after_children {T : Type} (cf : Cluster (ChiaFarmer T))
    (cw : Cluster ChiaWallet) (req : Request) :
    (∀ farmer, cf.Get req.NamespacedName = .ok farmer →
      (cf.Reconcile .BaseService farmer).2 = none →
      (cf.Reconcile .ChiaExporterService farmer).2 = none →
      (cf.Reconcile .Deployment farmer).2 = none →
      calls (chiafarmer.Reconcile cf req).trace =
        [.Get req.NamespacedName none, .Reconcile .BaseService farmer none,
          .Reconcile .ChiaExporterService farmer none, .Reconcile .Deployment farmer none,
          .StatusUpdate { farmer with Status := { farmer.Status with Ready := true } }
            (cf.StatusUpdate { farmer with Status := { farmer.Status with Ready := true } })] ∧
      statusUpdates (chiafarmer.Reconcile cf req).trace = 1 ∧
      (chiafarmer.Reconcile cf req).err =
        cf.StatusUpdate { farmer with Status := { farmer.Status with Ready := true } } ∧
      (chiafarmer.Reconcile cf req).result = {} ∧
      deletes (chiafarmer.Reconcile cf req).trace = 0) ∧
    (∀ wallet, cw.Get req.NamespacedName = .ok wallet →
      (cw.Reconcile .BaseService wallet).2 = none →
      (cw.Reconcile .ChiaExporterService wallet).2 = none →
      (cw.Reconcile .Deployment wallet).2 = none →
      calls (chiawallet.Reconcile cw req).trace =
        [.Get req.NamespacedName none, .Reconcile .BaseService wallet none,
          .Reconcile .ChiaExporterService wallet none, .Reconcile .Deployment wallet none,
          .StatusUpdate { wallet with Status := { wallet.Status with Ready := true } }
            (cw.StatusUpdate { wallet with Status := { wallet.Status with Ready := true } })] ∧
      statusUpdates (chiawallet.Reconcile cw req).trace = 1 ∧
      (chiawallet.Reconcile cw req).err =
        cw.StatusUpdate { wallet with Status := { wallet.Status with Ready := true } } ∧
      (chiawallet.Reconcile cw req).result = {} ∧
      deletes (chiawallet.Reconcile cw req).trace = 0) := by
  refine ⟨?_, ?_⟩
  · intro farmer hget h1 h2 h3
    unfold chiafarmer.Reconcile
    simp only [hget, h1, h2, h3]
    cases hu : cf.StatusUpdate { farmer with Status := { farmer.Status with Ready := true } } <;>
      simp [calls, statusUpdates, deletes, Event.isLog, Event.isStatusUpdate,
        Event.isDelete, List.countP_cons, List.filter_cons]
  · intro wallet hget h1 h2 h3
    unfold chiawallet.Reconcile
    simp only [hget, h1, h2, h3]
    cases hu : cw.StatusUpdate { wallet with Status := { wallet.Status with Ready := true } } <;>
      simp [calls, statusUpdates, deletes, Event.isLog, Event.isStatusUpdate,
        Event.isDelete, List.countP_cons, List.filter_cons]

/-- Witness of C9: a farmer invocation whose status update succeeds returns nil, and a wallet
invocation whose status update fails returns the error of the update. -/
theorem status_update_after_children_witness :
    (chiafarmer.Reconcile (scripted (.ok sampleFarmer) none secretNever none)
      sampleRequest).err = none ∧
    (chiawallet.Reconcile (scripted (.ok walletSample) none secretNever (some errTimeout))
      walletRequest).err = some errTimeout :=
  have h := status_update_after_children
    (scripted (.ok sampleFarmer) none secretNever none)
    (scripted (.ok walletSample) none secretNever (some errTimeout)) sampleRequest
  have h' := status_update_after_children
    (scripted (.ok sampleFarmer) none secretNever none)
    (scripted (.ok walletSample) none secretNever (some errTimeout)) walletRequest
  ⟨(h.1 sampleFarmer rfl rfl rfl rfl).2.2.1, (h'.2 walletSample rfl rfl rfl rfl).2.2.1⟩

/-- C10 fails as stated: one successful invocation of the wallet dispatcher on `wallet-sample`
reconciles two Service descriptors, the base Service and the chia-exporter Service, not
exactly one. -/
theorem wallet_child_set_counterexample :
    (chiawallet.Reconcile (scripted (.ok walletSample) none secretNever none)
      walletRequest).err = none ∧
    reconciled .Service (chiawallet.Reconcile (scripted (.ok walletSample) none secretNever
      none) walletRequest).trace = 2 ∧
    ¬ (reconciled .Service (chiawallet.Reconcile (scripted (.ok walletSample) none
        secretNever none) walletRequest).trace = 1 ∧
      reconciled .Deployment (chiawallet.Reconcile (scripted (.ok walletSample) none
        secretNever none) walletRequest).trace = 1) := by
  decide

/-- C10 as amended: an invocation of the wallet dispatcher that fetched the wallet and
returned a nil error has reconciled exactly the base Service, the chia-exporter Service and
the Deployment assembled from the fetched wallet (two Service descriptors and one Deployment
descriptor), and then issued, as its last interaction, a successful status update of the
wallet with `Status.Ready` set to true. -/
theorem wallet_child_set (cw : Cluster ChiaWallet) (req : Request) (wallet : ChiaWallet)
    (hget : cw.Get req.NamespacedName = .ok wallet)
    (herr : (chiawallet.Reconcile cw req).err = none) :
    calls (chiawallet.Reconcile cw req).trace =
      [.Get req.NamespacedName none, .Reconcile .BaseService wallet none,
        .Reconcile .ChiaExporterService wallet none, .Reconcile .Deployment wallet none,
        .StatusUpdate { wallet with Status := { wallet.Status with Ready := true } } none] ∧
    reconciled .Service (chiawallet.Reconcile cw req).trace = 2 ∧
    reconciled .Deployment (chiawallet.Reconcile cw req).trace = 1 ∧
    (chiawallet.Reconcile cw req).trace.getLast? =
      some (.StatusUpdate { wallet with Status := { wallet.Status with Ready := true } } none) := by
  unfold chiawallet.Reconcile at herr ⊢
  simp only [hget] at herr ⊢
  repeat' split at herr
  all_goals simp_all [calls, reconciled, childCalls, Event.isLog, Event.child?, Child.kind,
    List.filter_cons]

/-- Witness of C10 as amended: the wallet dispatcher on `wallet-sample` in a cluster where
everything succeeds. -/
theorem wallet_child_set_witness :
    reconciled .Service (chiawallet.Reconcile (scripted (.ok walletSample) none secretNever
      none) walletRequest).trace = 2 ∧
    reconciled .Deployment (chiawallet.Reconcile (scripted (.ok walletSample) none secretNever
      none) walletRequest).trace = 1 :=
  have h := wallet_child_set (scripted (.ok walletSample) none secretNever none)
    walletRequest walletSample rfl (by decide)
  ⟨h.2.1, h.2.2.1⟩

/-! ### Manifest decoding -/

/-- A bind of decodings succeeds exactly when both parts do. -/
theorem bind_eq_ok {α β : Type} (x : Except Failure α) (f : α → Except Failure β) (b : β) :
    (x >>= f) = .ok b ↔ ∃ a, x = .ok a ∧ f a = .ok b := by
  cases x <;> simp [bind, Except.bind]

/-- A bind after a success continues with its value. -/
theorem ok_bind {α β : Type} (a : α) (f : α → Except Failure β) :
    ((Except.ok a : Except Failure α) >>= f) = f a :=
  rfl

/-- The members of a struct node are found by `child`. -/
theorem child_of_members (v : Option Node) (es : List (String × Node))
    (h : members v = .ok es) (tag : String) : child tag v = field tag es := by
  rcases v with _ | v
  · simp only [members, Except.ok.injEq] at h
    subst h
    rfl
  · cases v <;> simp only [members, Except.ok.injEq, reduceCtorEq] at h <;> subst h <;> rfl

/-- The entries spelled from a map with distinct keys decode to the map. -/
theorem decodeEntries_mapNode (direct : Bool) (es : List (String × String))
    (h : (es.map Prod.fst).Nodup) :
    decodeEntries direct (es.map (fun e => (e.1, Node.str e.2))) = .ok es := by
  induction es with
  | nil => rfl
  | cons e es ih =>
    simp only [List.map_cons, List.nodup_cons] at h
    have hno : (es.map (fun e => (e.1, Node.str e.2))).any (fun x => x.1 == e.1) = false := by
      simp only [List.any_eq_false, List.mem_map, forall_exists_index, and_imp]
      rintro _ x hx rfl
      simp only [beq_iff_eq]
      intro heq
      exact h.1 (List.mem_map.2 ⟨x, hx, heq⟩)
    simp [decodeEntries, hno, ih h.2, decodeString]

/-- The node spelled from a map with distinct keys decodes to the map. -/
theorem decodeStringMap_mapNode (direct : Bool) (m : Option (List (String × String)))
    (h : distinctKeys m) : decodeStringMap direct (some (mapNode m)) = .ok m := by
  cases m with
  | none => rfl
  | some es => simp [mapNode, decodeStringMap, decodeEntries_mapNode direct es h, Except.map]

/-- The node spelled from a `*string` decodes to it. -/
theorem decodeStringPtr_node (p : Option String) :
    decodeStringPtr (some (stringPtrNode p)) = .ok p := by
  cases p <;> rfl

/-- The node spelled from a `*bool` decodes to it. -/
theorem decodeBoolPtr_node (p : Option Bool) :
    decodeBoolPtr (some (boolPtrNode p)) = .ok p := by
  cases p <;> rfl

/-- What a successful `decodeObjectMeta` read from the members of its node. -/
theorem decodeObjectMeta_ok (v : Option Node) (x : ObjectMeta)
    (h : decodeObjectMeta v = .ok x) :
    (∃ n, child "name" v = .ok n ∧
      decodeString true n = .ok x.Name) ∧
    (∃ n, child "namespace" v = .ok n ∧
      decodeString true n = .ok x.Namespace) ∧
    (∃ n, child "labels" v = .ok n ∧
      decodeStringMap true n = .ok x.Labels) := by
  simp only [decodeObjectMeta, bind_eq_ok, pure, Except.pure, Except.ok.injEq] at h
  obtain ⟨es, hm, h⟩ := h
  simp only [child_of_members v es hm]
  aesop

/-- What a successful `decodeSpecChiaExporter` read from the members of its node. -/
theorem decodeSpecChiaExporter_ok (v : Option Node) (x : SpecChiaExporter)
    (h : decodeSpecChiaExporter v = .ok x) :
    (∃ n, child "enabled" v = .ok n ∧
      decodeBool n = .ok x.Enabled) ∧
    (∃ n, child "serviceLabels" v = .ok n ∧
      decodeStringMap false n = .ok x.ServiceLabels) := by
  simp only [decodeSpecChiaExporter, bind_eq_ok, pure, Except.pure, Except.ok.injEq] at h
  obtain ⟨es, hm, h⟩ := h
  simp only [child_of_members v es hm]
  aesop

/-- What a successful `decodeChiaKeysSpec` read from the members of its node. -/
theorem decodeChiaKeysSpec_ok (v : Option Node) (x : ChiaKeysSpec)
    (h : decodeChiaKeysSpec v = .ok x) :
    (∃ n, child "name" v = .ok n ∧
      decodeString true n = .ok x.Name) ∧
    (∃ n, child "key" v = .ok n ∧
      decodeString true n = .ok x.Key) := by
  simp only [decodeChiaKeysSpec, bind_eq_ok, pure, Except.pure, Except.ok.injEq] at h
  obtain ⟨es, hm, h⟩ := h
  simp only [child_of_members v es hm]
  aesop

/-- What a successful `decodeChiaSecretKey` read from the members of its node. -/
theorem decodeChiaSecretKey_ok (v : Option Node) (x : ChiaSecretKey)
    (h : decodeChiaSecretKey v = .ok x) :
    (∃ n, child "name" v = .ok n ∧
      decodeString true n = .ok x.Name) ∧
    (∃ n, child "key" v = .ok n ∧
      decodeString true n = .ok x.Key) := by
  simp only [decodeChiaSecretKey, bind_eq_ok, pure, Except.pure, Except.ok.injEq] at h
  obtain ⟨es, hm, h⟩ := h
  simp only [child_of_members v es hm]
  aesop

/-- What a successful `decodeChiaWalletConfigSpec` read from the members of its node. -/
theorem decodeChiaWalletConfigSpec_ok (v : Option Node) (x : ChiaWalletConfigSpec)
    (h : decodeChiaWalletConfigSpec v = .ok x) :
    (∃ n, child "caSecretName" v = .ok n ∧
      decodeString false n = .ok x.CommonChiaConfigSpec.CASecretName) ∧
    (∃ n, child "testnet" v = .ok n ∧
      decodeBoolPtr n = .ok x.CommonChiaConfigSpec.Testnet) ∧
    (∃ n, child "timezone" v = .ok n ∧
      decodeStringPtr n = .ok x.CommonChiaConfigSpec.Timezone) ∧
    (∃ n, child "logLevel" v = .ok n ∧
      decodeStringPtr n = .ok x.CommonChiaConfigSpec.LogLevel) ∧
    (∃ n, child "secretKey" v = .ok n ∧
      decodeChiaKeysSpec n = .ok x.SecretKeySpec) ∧
    (∃ n, child "fullNodePeer" v = .ok n ∧
      decodeString true n = .ok x.FullNodePeer) := by
  simp only [decodeChiaWalletConfigSpec, bind_eq_ok, pure, Except.pure, Except.ok.injEq] at h
  obtain ⟨es, hm, h⟩ := h
  simp only [child_of_members v es hm]
  aesop

/-- What a successful `decodeChiaFarmerSpecChia` read from the members of its node. -/
theorem decodeChiaFarmerSpecChia_ok (v : Option Node) (x : ChiaFarmerSpecChia)
    (h : decodeChiaFarmerSpecChia v = .ok x) :
    (∃ n, child "caSecretName" v = .ok n ∧
      decodeString false n = .ok x.CommonSpecChia.CASecretName) ∧
    (∃ n, child "testnet" v = .ok n ∧
      decodeBoolPtr n = .ok x.CommonSpecChia.Testnet) ∧
    (∃ n, child "timezone" v = .ok n ∧
      decodeStringPtr n = .ok x.CommonSpecChia.Timezone) ∧
    (∃ n, child "logLevel" v = .ok n ∧
      decodeStringPtr n = .ok x.CommonSpecChia.LogLevel) ∧
    (∃ n, child "secretKey" v = .ok n ∧
      decodeChiaSecretKey n = .ok x.SecretKey) ∧
    (∃ n, child "fullNodePeer" v = .ok n ∧
      decodeString true n = .ok x.FullNodePeer) := by
  simp only [decodeChiaFarmerSpecChia, bind_eq_ok, pure, Except.pure, Except.ok.injEq] at h
  obtain ⟨es, hm, h⟩ := h
  simp only [child_of_members v es hm]
  aesop

/-- What a successful `decodeChiaWalletSpec` read from the members of its node. -/
theorem decodeChiaWalletSpec_ok (v : Option Node) (x : ChiaWalletSpec)
    (h : decodeChiaWalletSpec v = .ok x) :
    (∃ n, child "chiaExporter" v = .ok n ∧
      decodeSpecChiaExporter n = .ok x.CommonSpec.ChiaExporterConfig) ∧
    (∃ n, child "chia" v = .ok n ∧
      decodeChiaWalletConfigSpec n = .ok x.ChiaConfig) := by
  simp only [decodeChiaWalletSpec, bind_eq_ok, pure, Except.pure, Except.ok.injEq] at h
  obtain ⟨es, hm, h⟩ := h
  simp only [child_of_members v es hm]
  aesop

/-- What a successful `decodeChiaFarmerSpec` read from the members of its node. -/
theorem decodeChiaFarmerSpec_ok (v : Option Node) (x : ChiaFarmerSpec)
    (h : decodeChiaFarmerSpec v = .ok x) :
    (∃ n, child "chiaExporter" v = .ok n ∧
      decodeSpecChiaExporter n = .ok x.CommonSpec.ChiaExporterConfig) ∧
    (∃ n, child "chia" v = .ok n ∧
      decodeChiaFarmerSpecChia n = .ok x.ChiaConfig) := by
  simp only [decodeChiaFarmerSpec, bind_eq_ok, pure, Except.pure, Except.ok.injEq] at h
  obtain ⟨es, hm, h⟩ := h
  simp only [child_of_members v es hm]
  aesop

/-- What a successful `decodeChiaWalletStatus` read from the members of its node. -/
theorem decodeChiaWalletStatus_ok (v : Option Node) (x : ChiaWalletStatus)
    (h : decodeChiaWalletStatus v = .ok x) :
    (∃ n, child "ready" v = .ok n ∧
      decodeBool n = .ok x.Ready) := by
  simp only [decodeChiaWalletStatus, bind_eq_ok, pure, Except.pure, Except.ok.injEq] at h
  obtain ⟨es, hm, h⟩ := h
  simp only [child_of_members v es hm]
  aesop

/-- What a successful `decodeChiaFarmerStatus` read from the members of its node. -/
theorem decodeChiaFarmerStatus_ok (v : Option Node) (x : ChiaFarmerStatus)
    (h : decodeChiaFarmerStatus v = .ok x) :
    (∃ n, child "ready" v = .ok n ∧
      decodeBool n = .ok x.Ready) := by
  simp only [decodeChiaFarmerStatus, bind_eq_ok, pure, Except.pure, Except.ok.injEq] at h
  obtain ⟨es, hm, h⟩ := h
  simp only [child_of_members v es hm]
  aesop

/-- What a successful `UnmarshalChiaWallet` read from the members of the root. -/
theorem UnmarshalChiaWallet_ok (doc : Node) (x : ChiaWallet)
    (h : UnmarshalChiaWallet doc = .ok x) :
    (∃ n, child "kind" (some doc) = .ok n ∧ decodeString false n = .ok x.TypeMeta.Kind) ∧
    (∃ n, child "apiVersion" (some doc) = .ok n ∧
      decodeString false n = .ok x.TypeMeta.APIVersion) ∧
    (∃ n, child "metadata" (some doc) = .ok n ∧ decodeObjectMeta n = .ok x.ObjectMeta) ∧
    (∃ n, child "spec" (some doc) = .ok n ∧ decodeChiaWalletSpec n = .ok x.Spec) ∧
    (∃ n, child "status" (some doc) = .ok n ∧ decodeChiaWalletStatus n = .ok x.Status) := by
  simp only [UnmarshalChiaWallet, bind_eq_ok, pure, Except.pure, Except.ok.injEq] at h
  obtain ⟨es, hm, h⟩ := h
  simp only [child_of_members (some doc) es hm]
  aesop

/-- What a successful `UnmarshalChiaFarmer` read from the members of the root. -/
theorem UnmarshalChiaFarmer_ok (doc : Node) (x : ChiaFarmer ChiaFarmerSpec)
    (h : UnmarshalChiaFarmer doc = .ok x) :
    (∃ n, child "kind" (some doc) = .ok n ∧ decodeString false n = .ok x.TypeMeta.Kind) ∧
    (∃ n, child "apiVersion" (some doc) = .ok n ∧
      decodeString false n = .ok x.TypeMeta.APIVersion) ∧
    (∃ n, child "metadata" (some doc) = .ok n ∧ decodeObjectMeta n = .ok x.ObjectMeta) ∧
    (∃ n, child "spec" (some doc) = .ok n ∧ decodeChiaFarmerSpec n = .ok x.Spec) ∧
    (∃ n, child "status" (some doc) = .ok n ∧ decodeChiaFarmerStatus n = .ok x.Status) := by
  simp only [UnmarshalChiaFarmer, bind_eq_ok, pure, Except.pure, Except.ok.injEq] at h
  obtain ⟨es, hm, h⟩ := h
  simp only [child_of_members (some doc) es hm]
  aesop

/-- What a successful `UnmarshalChiaWallet` read at the end of every path of tags. -/
theorem UnmarshalChiaWallet_leaves (doc : Node) (x : ChiaWallet)
    (h : UnmarshalChiaWallet doc = .ok x) :
    (∃ n, doc.path ["kind"] = .ok n ∧
      decodeString false n = .ok x.TypeMeta.Kind) ∧
    (∃ n, doc.path ["apiVersion"] = .ok n ∧
      decodeString false n = .ok x.TypeMeta.APIVersion) ∧
    (∃ n, doc.path ["metadata", "name"] = .ok n ∧
      decodeString true n = .ok x.ObjectMeta.Name) ∧
    (∃ n, doc.path ["metadata", "namespace"] = .ok n ∧
      decodeString true n = .ok x.ObjectMeta.Namespace) ∧
    (∃ n, doc.path ["metadata", "labels"] = .ok n ∧
      decodeStringMap true n = .ok x.ObjectMeta.Labels) ∧
    (∃ n, doc.path ["spec", "chiaExporter", "enabled"] = .ok n ∧
      decodeBool n = .ok x.Spec.CommonSpec.ChiaExporterConfig.Enabled) ∧
    (∃ n, doc.path ["spec", "chiaExporter", "serviceLabels"] = .ok n ∧
      decodeStringMap false n = .ok x.Spec.CommonSpec.ChiaExporterConfig.ServiceLabels) ∧
    (∃ n, doc.path ["spec", "chia", "caSecretName"] = .ok n ∧
      decodeString false n = .ok x.Spec.ChiaConfig.CommonChiaConfigSpec.CASecretName) ∧
    (∃ n, doc.path ["spec", "chia", "testnet"] = .ok n ∧
      decodeBoolPtr n = .ok x.Spec.ChiaConfig.CommonChiaConfigSpec.Testnet) ∧
    (∃ n, doc.path ["spec", "chia", "timezone"] = .ok n ∧
      decodeStringPtr n = .ok x.Spec.ChiaConfig.CommonChiaConfigSpec.Timezone) ∧
    (∃ n, doc.path ["spec", "chia", "logLevel"] = .ok n ∧
      decodeStringPtr n = .ok x.Spec.ChiaConfig.CommonChiaConfigSpec.LogLevel) ∧
    (∃ n, doc.path ["spec", "chia", "secretKey", "name"] = .ok n ∧
      decodeString true n = .ok x.Spec.ChiaConfig.SecretKeySpec.Name) ∧
    (∃ n, doc.path ["spec", "chia", "secretKey", "key"] = .ok n ∧
      decodeString true n = .ok x.Spec.ChiaConfig.SecretKeySpec.Key) ∧
    (∃ n, doc.path ["spec", "chia", "fullNodePeer"] = .ok n ∧
      decodeString true n = .ok x.Spec.ChiaConfig.FullNodePeer) ∧
    (∃ n, doc.path ["status", "ready"] = .ok n ∧
      decodeBool n = .ok x.Status.Ready) := by
  obtain ⟨⟨nk, hk, dk⟩, ⟨na, ha, da⟩, ⟨nm, hm, dm⟩, ⟨ns, hs, ds⟩, ⟨nt, ht, dt⟩⟩ :=
    UnmarshalChiaWallet_ok doc x h
  obtain ⟨⟨nmn, hmn, dmn⟩, ⟨nms, hms, dms⟩, ⟨nml, hml, dml⟩⟩ := decodeObjectMeta_ok nm _ dm
  obtain ⟨⟨ne, he, de⟩, ⟨nc, hc, dc⟩⟩ := decodeChiaWalletSpec_ok ns _ ds
  obtain ⟨⟨nee, hee, dee⟩, ⟨nel, hel, del⟩⟩ := decodeSpecChiaExporter_ok ne _ de
  obtain ⟨⟨nca, hca, dca⟩, ⟨nct, hct, dct⟩, ⟨ncz, hcz, dcz⟩, ⟨ncl, hcl, dcl⟩, ⟨nck, hck, dck⟩,
    ⟨ncp, hcp, dcp⟩⟩ := decodeChiaWalletConfigSpec_ok nc _ dc
  obtain ⟨⟨nkn, hkn, dkn⟩, ⟨nkk, hkk, dkk⟩⟩ := decodeChiaKeysSpec_ok nck _ dck
  obtain ⟨nr, hr, dr⟩ := decodeChiaWalletStatus_ok nt _ dt
  refine ⟨⟨nk, ?_, dk⟩, ⟨na, ?_, da⟩, ⟨nmn, ?_, dmn⟩, ⟨nms, ?_, dms⟩, ⟨nml, ?_, dml⟩,
    ⟨nee, ?_, dee⟩, ⟨nel, ?_, del⟩, ⟨nca, ?_, dca⟩, ⟨nct, ?_, dct⟩, ⟨ncz, ?_, dcz⟩,
    ⟨ncl, ?_, dcl⟩, ⟨nkn, ?_, dkn⟩, ⟨nkk, ?_, dkk⟩, ⟨ncp, ?_, dcp⟩, ⟨nr, ?_, dr⟩⟩ <;>
    simp only [Node.path, List.foldlM, ok_bind, pure, Except.pure, hk, ha, hm, hs, ht, hmn,
      hms, hml, he, hc, hee, hel, hca, hct, hcz, hcl, hck, hcp, hkn, hkk, hr]

/-- What a successful `UnmarshalChiaFarmer` read at the end of every path of tags. -/
theorem UnmarshalChiaFarmer_leaves (doc : Node) (x : ChiaFarmer ChiaFarmerSpec)
    (h : UnmarshalChiaFarmer doc = .ok x) :
    (∃ n, doc.path ["kind"] = .ok n ∧
      decodeString false n = .ok x.TypeMeta.Kind) ∧
    (∃ n, doc.path ["apiVersion"] = .ok n ∧
      decodeString false n = .ok x.TypeMeta.APIVersion) ∧
    (∃ n, doc.path ["metadata", "name"] = .ok n ∧
      decodeString true n = .ok x.ObjectMeta.Name) ∧
    (∃ n, doc.path ["metadata", "namespace"] = .ok n ∧
      decodeString true n = .ok x.ObjectMeta.Namespace) ∧
    (∃ n, doc.path ["metadata", "labels"] = .ok n ∧
      decodeStringMap true n = .ok x.ObjectMeta.Labels) ∧
    (∃ n, doc.path ["spec", "chiaExporter", "enabled"] = .ok n ∧
      decodeBool n = .ok x.Spec.CommonSpec.ChiaExporterConfig.Enabled) ∧
    (∃ n, doc.path ["spec", "chiaExporter", "serviceLabels"] = .ok n ∧
      decodeStringMap false n = .ok x.Spec.CommonSpec.ChiaExporterConfig.ServiceLabels) ∧
    (∃ n, doc.path ["spec", "chia", "caSecretName"] = .ok n ∧
      decodeString false n = .ok x.Spec.ChiaConfig.CommonSpecChia.CASecretName) ∧
    (∃ n, doc.path ["spec", "chia", "testnet"] = .ok n ∧
      decodeBoolPtr n = .ok x.Spec.ChiaConfig.CommonSpecChia.Testnet) ∧
    (∃ n, doc.path ["spec", "chia", "timezone"] = .ok n ∧
      decodeStringPtr n = .ok x.Spec.ChiaConfig.CommonSpecChia.Timezone) ∧
    (∃ n, doc.path ["spec", "chia", "logLevel"] = .ok n ∧
      decodeStringPtr n = .ok x.Spec.ChiaConfig.CommonSpecChia.LogLevel) ∧
    (∃ n, doc.path ["spec", "chia", "secretKey", "name"] = .ok n ∧
      decodeString true n = .ok x.Spec.ChiaConfig.SecretKey.Name) ∧
    (∃ n, doc.path ["spec", "chia", "secretKey", "key"] = .ok n ∧
      decodeString true n = .ok x.Spec.ChiaConfig.SecretKey.Key) ∧
    (∃ n, doc.path ["spec", "chia", "fullNodePeer"] = .ok n ∧
      decodeString true n = .ok x.Spec.ChiaConfig.FullNodePeer) ∧
    (∃ n, doc.path ["status", "ready"] = .ok n ∧
      decodeBool n = .ok x.Status.Ready) := by
  obtain ⟨⟨nk, hk, dk⟩, ⟨na, ha, da⟩, ⟨nm, hm, dm⟩, ⟨ns, hs, ds⟩, ⟨nt, ht, dt⟩⟩ :=
    UnmarshalChiaFarmer_ok doc x h
  obtain ⟨⟨nmn, hmn, dmn⟩, ⟨nms, hms, dms⟩, ⟨nml, hml, dml⟩⟩ := decodeObjectMeta_ok nm _ dm
  obtain ⟨⟨ne, he, de⟩, ⟨nc, hc, dc⟩⟩ := decodeChiaFarmerSpec_ok ns _ ds
  obtain ⟨⟨nee, hee, dee⟩, ⟨nel, hel, del⟩⟩ := decodeSpecChiaExporter_ok ne _ de
  obtain ⟨⟨nca, hca, dca⟩, ⟨nct, hct, dct⟩, ⟨ncz, hcz, dcz⟩, ⟨ncl, hcl, dcl⟩, ⟨nck, hck, dck⟩,
    ⟨ncp, hcp, dcp⟩⟩ := decodeChiaFarmerSpecChia_ok nc _ dc
  obtain ⟨⟨nkn, hkn, dkn⟩, ⟨nkk, hkk, dkk⟩⟩ := decodeChiaSecretKey_ok nck _ dck
  obtain ⟨nr, hr, dr⟩ := decodeChiaFarmerStatus_ok nt _ dt
  refine ⟨⟨nk, ?_, dk⟩, ⟨na, ?_, da⟩, ⟨nmn, ?_, dmn⟩, ⟨nms, ?_, dms⟩, ⟨nml, ?_, dml⟩,
    ⟨nee, ?_, dee⟩, ⟨nel, ?_, del⟩, ⟨nca, ?_, dca⟩, ⟨nct, ?_, dct⟩, ⟨ncz, ?_, dcz⟩,
    ⟨ncl, ?_, dcl⟩, ⟨nkn, ?_, dkn⟩, ⟨nkk, ?_, dkk⟩, ⟨ncp, ?_, dcp⟩, ⟨nr, ?_, dr⟩⟩ <;>
    simp only [Node.path, List.foldlM, ok_bind, pure, Except.pure, hk, ha, hm, hs, ht, hmn,
      hms, hml, he, hc, hee, hel, hca, hct, hcz, hcl, hck, hcp, hkn, hkk, hr]

/-- The node that spells an `ObjectMeta` decodes to it. -/
theorem decodeObjectMeta_manifest (o : ObjectMeta) (h : distinctKeys o.Labels) :
    decodeObjectMeta (some (.map [("labels", mapNode o.Labels), ("name", .str o.Name),
      ("namespace", .str o.Namespace)])) = .ok o := by
  have hall : ∀ a0 a1 a2 : Node, onlyFields ["name", "namespace", "labels"]
      [("labels", a0), ("name", a1), ("namespace", a2)] = .ok () :=
    fun _ _ _ => rfl
  have hf0 : ∀ a0 a1 a2 : Node, field "labels"
      [("labels", a0), ("name", a1), ("namespace", a2)] = .ok (some a0) :=
    fun _ _ _ => rfl
  have hf1 : ∀ a0 a1 a2 : Node, field "name"
      [("labels", a0), ("name", a1), ("namespace", a2)] = .ok (some a1) :=
    fun _ _ _ => rfl
  have hf2 : ∀ a0 a1 a2 : Node, field "namespace"
      [("labels", a0), ("name", a1), ("namespace", a2)] = .ok (some a2) :=
    fun _ _ _ => rfl
  cases o with | mk n ns l => ?_
  have hl := decodeStringMap_mapNode true l h
  simp only [decodeObjectMeta, members, hall, hf0, hf1, hf2, hl, decodeString, decodeBool, bind, Except.bind, pure, Except.pure]

/-- The node that spells a `SpecChiaExporter` decodes to it. -/
theorem decodeSpecChiaExporter_manifest (e : SpecChiaExporter) (h : distinctKeys e.ServiceLabels) :
    decodeSpecChiaExporter (some (.map [("enabled", .bool e.Enabled),
      ("serviceLabels", mapNode e.ServiceLabels)])) = .ok e := by
  have hall : ∀ a0 a1 : Node, onlyFields ["enabled", "serviceLabels"]
      [("enabled", a0), ("serviceLabels", a1)] = .ok () :=
    fun _ _ => rfl
  have hf0 : ∀ a0 a1 : Node, field "enabled"
      [("enabled", a0), ("serviceLabels", a1)] = .ok (some a0) :=
    fun _ _ => rfl
  have hf1 : ∀ a0 a1 : Node, field "serviceLabels"
      [("enabled", a0), ("serviceLabels", a1)] = .ok (some a1) :=
    fun _ _ => rfl
  cases e with | mk en l => ?_
  have hl := decodeStringMap_mapNode false l h
  simp only [decodeSpecChiaExporter, members, hall, hf0, hf1, hl, decodeString, decodeBool, bind, Except.bind, pure, Except.pure]

/-- The node that spells a `ChiaKeysSpec` decodes to it. -/
theorem decodeChiaKeysSpec_manifest (k : ChiaKeysSpec) :
    decodeChiaKeysSpec (some (.map [("name", .str k.Name), ("key", .str k.Key)])) = .ok k := by
  have hall : ∀ a0 a1 : Node, onlyFields ["name", "key"]
      [("name", a0), ("key", a1)] = .ok () :=
    fun _ _ => rfl
  have hf0 : ∀ a0 a1 : Node, field "name"
      [("name", a0), ("key", a1)] = .ok (some a0) :=
    fun _ _ => rfl
  have hf1 : ∀ a0 a1 : Node, field "key"
      [("name", a0), ("key", a1)] = .ok (some a1) :=
    fun _ _ => rfl
  cases k with | mk n ky => ?_
  simp only [decodeChiaKeysSpec, members, hall, hf0, hf1, decodeString, decodeBool, bind, Except.bind, pure, Except.pure]

/-- The node that spells a `ChiaSecretKey` decodes to it. -/
theorem decodeChiaSecretKey_manifest (k : ChiaSecretKey) :
    decodeChiaSecretKey (some (.map [("name", .str k.Name), ("key", .str k.Key)])) = .ok k := by
  have hall : ∀ a0 a1 : Node, onlyFields ["name", "key"]
      [("name", a0), ("key", a1)] = .ok () :=
    fun _ _ => rfl
  have hf0 : ∀ a0 a1 : Node, field "name"
      [("name", a0), ("key", a1)] = .ok (some a0) :=
    fun _ _ => rfl
  have hf1 : ∀ a0 a1 : Node, field "key"
      [("name", a0), ("key", a1)] = .ok (some a1) :=
    fun _ _ => rfl
  cases k with | mk n ky => ?_
  simp only [decodeChiaSecretKey, members, hall, hf0, hf1, decodeString, decodeBool, bind, Except.bind, pure, Except.pure]

/-- The node that spells a `ChiaWalletConfigSpec` decodes to it. -/
theorem decodeChiaWalletConfigSpec_manifest (c : ChiaWalletConfigSpec) :
    decodeChiaWalletConfigSpec (some (.map [
      ("caSecretName", .str c.CommonChiaConfigSpec.CASecretName),
      ("testnet", boolPtrNode c.CommonChiaConfigSpec.Testnet),
      ("timezone", stringPtrNode c.CommonChiaConfigSpec.Timezone),
      ("logLevel", stringPtrNode c.CommonChiaConfigSpec.LogLevel),
      ("fullNodePeer", .str c.FullNodePeer),
      ("secretKey", .map [("name", .str c.SecretKeySpec.Name), ("key", .str c.SecretKeySpec.Key)])])) = .ok c := by
  have hall : ∀ a0 a1 a2 a3 a4 a5 : Node, onlyFields ["caSecretName", "testnet", "timezone", "logLevel", "secretKey", "fullNodePeer"]
      [("caSecretName", a0), ("testnet", a1), ("timezone", a2), ("logLevel", a3), ("fullNodePeer", a4), ("secretKey", a5)] = .ok () :=
    fun _ _ _ _ _ _ => rfl
  have hf0 : ∀ a0 a1 a2 a3 a4 a5 : Node, field "caSecretName"
      [("caSecretName", a0), ("testnet", a1), ("timezone", a2), ("logLevel", a3), ("fullNodePeer", a4), ("secretKey", a5)] = .ok (some a0) :=
    fun _ _ _ _ _ _ => rfl
  have hf1 : ∀ a0 a1 a2 a3 a4 a5 : Node, field "testnet"
      [("caSecretName", a0), ("testnet", a1), ("timezone", a2), ("logLevel", a3), ("fullNodePeer", a4), ("secretKey", a5)] = .ok (some a1) :=
    fun _ _ _ _ _ _ => rfl
  have hf2 : ∀ a0 a1 a2 a3 a4 a5 : Node, field "timezone"
      [("caSecretName", a0), ("testnet", a1), ("timezone", a2), ("logLevel", a3), ("fullNodePeer", a4), ("secretKey", a5)] = .ok (some a2) :=
    fun _ _ _ _ _ _ => rfl
  have hf3 : ∀ a0 a1 a2 a3 a4 a5 : Node, field "logLevel"
      [("caSecretName", a0), ("testnet", a1), ("timezone", a2), ("logLevel", a3), ("fullNodePeer", a4), ("secretKey", a5)] = .ok (some a3) :=
    fun _ _ _ _ _ _ => rfl
  have hf4 : ∀ a0 a1 a2 a3 a4 a5 : Node, field "fullNodePeer"
      [("caSecretName", a0), ("testnet", a1), ("timezone", a2), ("logLevel", a3), ("fullNodePeer", a4), ("secretKey", a5)] = .ok (some a4) :=
    fun _ _ _ _ _ _ => rfl
  have hf5 : ∀ a0 a1 a2 a3 a4 a5 : Node, field "secretKey"
      [("caSecretName", a0), ("testnet", a1), ("timezone", a2), ("logLevel", a3), ("fullNodePeer", a4), ("secretKey", a5)] = .ok (some a5) :=
    fun _ _ _ _ _ _ => rfl
  cases c with | mk common sk peer => ?_
  cases common with | mk ca tn tz ll => ?_
  have hk := decodeChiaKeysSpec_manifest sk
  simp only [decodeChiaWalletConfigSpec, members, hall, hf0, hf1, hf2, hf3, hf4, hf5, hk, decodeBoolPtr_node, decodeStringPtr_node, decodeString, decodeBool, bind, Except.bind, pure, Except.pure]

/-- The node that spells a `ChiaFarmerSpecChia` decodes to it. -/
theorem decodeChiaFarmerSpecChia_manifest (c : ChiaFarmerSpecChia) :
    decodeChiaFarmerSpecChia (some (.map [
      ("caSecretName", .str c.CommonSpecChia.CASecretName),
      ("testnet", boolPtrNode c.CommonSpecChia.Testnet),
      ("timezone", stringPtrNode c.CommonSpecChia.Timezone),
      ("logLevel", stringPtrNode c.CommonSpecChia.LogLevel),
      ("fullNodePeer", .str c.FullNodePeer),
      ("secretKey", .map [("name", .str c.SecretKey.Name), ("key", .str c.SecretKey.Key)])])) = .ok c := by
  have hall : ∀ a0 a1 a2 a3 a4 a5 : Node, onlyFields ["caSecretName", "testnet", "timezone", "logLevel", "secretKey", "fullNodePeer"]
      [("caSecretName", a0), ("testnet", a1), ("timezone", a2), ("logLevel", a3), ("fullNodePeer", a4), ("secretKey", a5)] = .ok () :=
    fun _ _ _ _ _ _ => rfl
  have hf0 : ∀ a0 a1 a2 a3 a4 a5 : Node, field "caSecretName"
      [("caSecretName", a0), ("testnet", a1), ("timezone", a2), ("logLevel", a3), ("fullNodePeer", a4), ("secretKey", a5)] = .ok (some a0) :=
    fun _ _ _ _ _ _ => rfl
  have hf1 : ∀ a0 a1 a2 a3 a4 a5 : Node, field "testnet"
      [("caSecretName", a0), ("testnet", a1), ("timezone", a2), ("logLevel", a3), ("fullNodePeer", a4), ("secretKey", a5)] = .ok (some a1) :=
    fun _ _ _ _ _ _ => rfl
  have hf2 : ∀ a0 a1 a2 a3 a4 a5 : Node, field "timezone"
      [("caSecretName", a0), ("testnet", a1), ("timezone", a2), ("logLevel", a3), ("fullNodePeer", a4), ("secretKey", a5)] = .ok (some a2) :=
    fun _ _ _ _ _ _ => rfl
  have hf3 : ∀ a0 a1 a2 a3 a4 a5 : Node, field "logLevel"
      [("caSecretName", a0), ("testnet", a1), ("timezone", a2), ("logLevel", a3), ("fullNodePeer", a4), ("secretKey", a5)] = .ok (some a3) :=
    fun _ _ _ _ _ _ => rfl
  have hf4 : ∀ a0 a1 a2 a3 a4 a5 : Node, field "fullNodePeer"
      [("caSecretName", a0), ("testnet", a1), ("timezone", a2), ("logLevel", a3), ("fullNodePeer", a4), ("secretKey", a5)] = .ok (some a4) :=
    fun _ _ _ _ _ _ => rfl
  have hf5 : ∀ a0 a1 a2 a3 a4 a5 : Node, field "secretKey"
      [("caSecretName", a0), ("testnet", a1), ("timezone", a2), ("logLevel", a3), ("fullNodePeer", a4), ("secretKey", a5)] = .ok (some a5) :=
    fun _ _ _ _ _ _ => rfl
  cases c with | mk common sk peer => ?_
  cases common with | mk ca tn tz ll => ?_
  have hk := decodeChiaSecretKey_manifest sk
  simp only [decodeChiaFarmerSpecChia, members, hall, hf0, hf1, hf2, hf3, hf4, hf5, hk, decodeBoolPtr_node, decodeStringPtr_node, decodeString, decodeBool, bind, Except.bind, pure, Except.pure]

/-- The node that spells a `ChiaWalletSpec` decodes to it. -/
theorem decodeChiaWalletSpec_manifest (s : ChiaWalletSpec) (h : distinctKeys s.CommonSpec.ChiaExporterConfig.ServiceLabels) :
    decodeChiaWalletSpec (some (.map [
      ("chia", .map [
        ("caSecretName", .str s.ChiaConfig.CommonChiaConfigSpec.CASecretName),
        ("testnet", boolPtrNode s.ChiaConfig.CommonChiaConfigSpec.Testnet),
        ("timezone", stringPtrNode s.ChiaConfig.CommonChiaConfigSpec.Timezone),
        ("logLevel", stringPtrNode s.ChiaConfig.CommonChiaConfigSpec.LogLevel),
        ("fullNodePeer", .str s.ChiaConfig.FullNodePeer),
        ("secretKey", .map [
          ("name", .str s.ChiaConfig.SecretKeySpec.Name),
          ("key", .str s.ChiaConfig.SecretKeySpec.Key)])]),
      ("chiaExporter", .map [
        ("enabled", .bool s.CommonSpec.ChiaExporterConfig.Enabled),
        ("serviceLabels", mapNode s.CommonSpec.ChiaExporterConfig.ServiceLabels)])])) = .ok s := by
  have hall : ∀ a0 a1 : Node, onlyFields ["chiaExporter", "chia"]
      [("chia", a0), ("chiaExporter", a1)] = .ok () :=
    fun _ _ => rfl
  have hf0 : ∀ a0 a1 : Node, field "chia"
      [("chia", a0), ("chiaExporter", a1)] = .ok (some a0) :=
    fun _ _ => rfl
  have hf1 : ∀ a0 a1 : Node, field "chiaExporter"
      [("chia", a0), ("chiaExporter", a1)] = .ok (some a1) :=
    fun _ _ => rfl
  cases s with | mk common chia => ?_
  cases common with | mk exporter => ?_
  have he := decodeSpecChiaExporter_manifest exporter h
  have hc := decodeChiaWalletConfigSpec_manifest chia
  simp only [decodeChiaWalletSpec, members, hall, hf0, hf1, he, hc, decodeString, decodeBool, bind, Except.bind, pure, Except.pure]

/-- The node that spells a `ChiaFarmerSpec` decodes to it. -/
theorem decodeChiaFarmerSpec_manifest (s : ChiaFarmerSpec) (h : distinctKeys s.CommonSpec.ChiaExporterConfig.ServiceLabels) :
    decodeChiaFarmerSpec (some (.map [
      ("chia", .map [
        ("caSecretName", .str s.ChiaConfig.CommonSpecChia.CASecretName),
        ("testnet", boolPtrNode s.ChiaConfig.CommonSpecChia.Testnet),
        ("timezone", stringPtrNode s.ChiaConfig.CommonSpecChia.Timezone),
        ("logLevel", stringPtrNode s.ChiaConfig.CommonSpecChia.LogLevel),
        ("fullNodePeer", .str s.ChiaConfig.FullNodePeer),
        ("secretKey", .map [
          ("name", .str s.ChiaConfig.SecretKey.Name),
          ("key", .str s.ChiaConfig.SecretKey.Key)])]),
      ("chiaExporter", .map [
        ("enabled", .bool s.CommonSpec.ChiaExporterConfig.Enabled),
        ("serviceLabels", mapNode s.CommonSpec.ChiaExporterConfig.ServiceLabels)])])) = .ok s := by
  have hall : ∀ a0 a1 : Node, onlyFields ["chiaExporter", "chia"]
      [("chia", a0), ("chiaExporter", a1)] = .ok () :=
    fun _ _ => rfl
  have hf0 : ∀ a0 a1 : Node, field "chia"
      [("chia", a0), ("chiaExporter", a1)] = .ok (some a0) :=
    fun _ _ => rfl
  have hf1 : ∀ a0 a1 : Node, field "chiaExporter"
      [("chia", a0), ("chiaExporter", a1)] = .ok (some a1) :=
    fun _ _ => rfl
  cases s with | mk common chia => ?_
  cases common with | mk exporter => ?_
  have he := decodeSpecChiaExporter_manifest exporter h
  have hc := decodeChiaFarmerSpecChia_manifest chia
  simp only [decodeChiaFarmerSpec, members, hall, hf0, hf1, he, hc, decodeString, decodeBool, bind, Except.bind, pure, Except.pure]

/-- The node that spells a `ChiaWalletStatus` decodes to it. -/
theorem decodeChiaWalletStatus_manifest (s : ChiaWalletStatus) :
    decodeChiaWalletStatus (some (.map [("ready", .bool s.Ready)])) = .ok s := by
  have hf0 : ∀ a0 : Node, field "ready"
      [("ready", a0)] = .ok (some a0) :=
    fun _ => rfl
  cases s with | mk r => ?_
  simp only [decodeChiaWalletStatus, members, hf0, decodeString, decodeBool, bind, Except.bind, pure, Except.pure]

/-- The node that spells a `ChiaFarmerStatus` decodes to it. -/
theorem decodeChiaFarmerStatus_manifest (s : ChiaFarmerStatus) :
    decodeChiaFarmerStatus (some (.map [("ready", .bool s.Ready)])) = .ok s := by
  have hf0 : ∀ a0 : Node, field "ready"
      [("ready", a0)] = .ok (some a0) :=
    fun _ => rfl
  cases s with | mk r => ?_
  simp only [decodeChiaFarmerStatus, members, hf0, decodeString, decodeBool, bind, Except.bind, pure, Except.pure]

/-- The manifest that spells a value decodes to it. -/
theorem UnmarshalChiaWallet_manifest (w : ChiaWallet) (hl : distinctKeys w.ObjectMeta.Labels)
    (hs : distinctKeys w.Spec.CommonSpec.ChiaExporterConfig.ServiceLabels) :
    UnmarshalChiaWallet w.manifest = .ok w := by
  have hf0 : ∀ a0 a1 a2 a3 a4 : Node, field "apiVersion"
      [("apiVersion", a0), ("kind", a1), ("metadata", a2), ("spec", a3), ("status", a4)] = .ok (some a0) :=
    fun _ _ _ _ _ => rfl
  have hf1 : ∀ a0 a1 a2 a3 a4 : Node, field "kind"
      [("apiVersion", a0), ("kind", a1), ("metadata", a2), ("spec", a3), ("status", a4)] = .ok (some a1) :=
    fun _ _ _ _ _ => rfl
  have hf2 : ∀ a0 a1 a2 a3 a4 : Node, field "metadata"
      [("apiVersion", a0), ("kind", a1), ("metadata", a2), ("spec", a3), ("status", a4)] = .ok (some a2) :=
    fun _ _ _ _ _ => rfl
  have hf3 : ∀ a0 a1 a2 a3 a4 : Node, field "spec"
      [("apiVersion", a0), ("kind", a1), ("metadata", a2), ("spec", a3), ("status", a4)] = .ok (some a3) :=
    fun _ _ _ _ _ => rfl
  have hf4 : ∀ a0 a1 a2 a3 a4 : Node, field "status"
      [("apiVersion", a0), ("kind", a1), ("metadata", a2), ("spec", a3), ("status", a4)] = .ok (some a4) :=
    fun _ _ _ _ _ => rfl
  have hm := decodeObjectMeta_manifest w.ObjectMeta hl
  have hsp := decodeChiaWalletSpec_manifest w.Spec hs
  have hst := decodeChiaWalletStatus_manifest w.Status
  cases w with | mk tm om sp st => ?_
  cases tm with | mk av kd => ?_
  simp only [UnmarshalChiaWallet, ChiaWallet.manifest, members, hf0, hf1, hf2, hf3, hf4, hm, hsp, hst,
    decodeString, bind, Except.bind, pure, Except.pure]

/-- The manifest that spells a value decodes to it. -/
theorem UnmarshalChiaFarmer_manifest (f : ChiaFarmer ChiaFarmerSpec) (hl : distinctKeys f.ObjectMeta.Labels)
    (hs : distinctKeys f.Spec.CommonSpec.ChiaExporterConfig.ServiceLabels) :
    UnmarshalChiaFarmer f.manifest = .ok f := by
  have hf0 : ∀ a0 a1 a2 a3 a4 : Node, field "apiVersion"
      [("apiVersion", a0), ("kind", a1), ("metadata", a2), ("spec", a3), ("status", a4)] = .ok (some a0) :=
    fun _ _ _ _ _ => rfl
  have hf1 : ∀ a0 a1 a2 a3 a4 : Node, field "kind"
      [("apiVersion", a0), ("kind", a1), ("metadata", a2), ("spec", a3), ("status", a4)] = .ok (some a1) :=
    fun _ _ _ _ _ => rfl
  have hf2 : ∀ a0 a1 a2 a3 a4 : Node, field "metadata"
      [("apiVersion", a0), ("kind", a1), ("metadata", a2), ("spec", a3), ("status", a4)] = .ok (some a2) :=
    fun _ _ _ _ _ => rfl
  have hf3 : ∀ a0 a1 a2 a3 a4 : Node, field "spec"
      [("apiVersion", a0), ("kind", a1), ("metadata", a2), ("spec", a3), ("status", a4)] = .ok (some a3) :=
    fun _ _ _ _ _ => rfl
  have hf4 : ∀ a0 a1 a2 a3 a4 : Node, field "status"
      [("apiVersion", a0), ("kind", a1), ("metadata", a2), ("spec", a3), ("status", a4)] = .ok (some a4) :=
    fun _ _ _ _ _ => rfl
  have hm := decodeObjectMeta_manifest f.ObjectMeta hl
  have hsp := decodeChiaFarmerSpec_manifest f.Spec hs
  have hst := decodeChiaFarmerStatus_manifest f.Status
  cases f with | mk tm om sp st => ?_
  cases tm with | mk av kd => ?_
  simp only [UnmarshalChiaFarmer, ChiaFarmer.manifest, members, hf0, hf1, hf2, hf3, hf4, hm, hsp, hst,
    decodeString, bind, Except.bind, pure, Except.pure]

/-- A document without a status member leaves the ready flag false. -/
theorem ready_of_no_status (doc : Node) (n : Option Node) (r : Bool)
    (hs : doc.path ["status"] = .ok none) (hp : doc.path ["status", "ready"] = .ok n)
    (hd : decodeBool n = .ok r) : r = false := by
  simp only [Node.path, List.foldlM, bind_eq_ok, pure, Except.pure, Except.ok.injEq] at hs hp
  obtain ⟨a, ha, rfl⟩ := hs
  obtain ⟨b, hb, c, hc, rfl⟩ := hp
  rw [ha] at hb
  cases hb
  simp only [child, Except.ok.injEq] at hc
  subst hc
  simpa [decodeBool] using hd.symm

end ChiaOperator
